import Mathlib

/-
Formal model of the filter expression compiler of the MEAN log dashboard
frontend.  The definitions below are shallow embeddings of:

  * Frontend/src/app/utils/kibana-filter-utils.ts        (namespace KFU)
  * Frontend/src/app/kibana-filter-bar/kibana-filter-bar.component.ts,
    the inline updatePreview and generateQueryDSL          (namespace KFB)
  * Frontend/src/app/filter-builder/filter-ast.service.ts (namespace FAS)
  * filter-group-manager.component.ts                      (namespace FGM)

JavaScript strings are modelled as Lean String values; every string
operation the source uses (endsWith, trim, split, toLowerCase, includes)
is implemented over the underlying character list so that concrete values
compute by rfl and decide.  JavaScript numbers that arise here come from
parseFloat on strings matching the numeric regular expression; they are
modelled as exact rationals (the claims checked below depend only on the
classification of a value as numeric, never on binary rounding).
JavaScript objects of fixed shape are structures; the one dynamically
keyed object (the range bound object) is an association list with
assignment semantics.
-/

-- ===========================================================================
-- JavaScript value and string model
-- ===========================================================================

/-- Characters treated as whitespace by the JS trim used here. -/
def jsIsSpace (c : Char) : Bool :=
  c = ' ' || c = '\t' || c = '\n' || c = '\r'

/-- JS String.prototype.trim over the character list. -/
def jsTrimChars (l : List Char) : List Char :=
  ((l.dropWhile jsIsSpace).reverse.dropWhile jsIsSpace).reverse

/-- JS String.prototype.trim. -/
def jsTrim (s : String) : String := ⟨jsTrimChars s.data⟩

/-- JS String.prototype.endsWith. -/
def jsEndsWith (s suf : String) : Bool := suf.data.isSuffixOf s.data

/-- JS String.prototype.split on a single separator character. -/
def jsSplitChars (sep : Char) (l : List Char) : List (List Char) :=
  l.foldr
    (fun c acc =>
      match acc with
      | [] => [[c]]
      | g :: gs => if c = sep then [] :: (g :: gs) else (c :: g) :: gs)
    [[]]

/-- JS String.prototype.split on a one-character separator string. -/
def jsSplit (s : String) (sep : Char) : List String :=
  (jsSplitChars sep s.data).map (fun l => ⟨l⟩)

/-- ASCII lower casing, enough for the JS toLowerCase calls that appear. -/
def jsLowerChar (c : Char) : Char :=
  if 'A' ≤ c && c ≤ 'Z' then Char.ofNat (c.toNat + 32) else c

/-- JS String.prototype.toLowerCase. -/
def jsToLower (s : String) : String := ⟨s.data.map jsLowerChar⟩

/-- Infix test over character lists (needle, then haystack). -/
def charsInfixOf (needle : List Char) : List Char → Bool
  | [] => needle.isPrefixOf []
  | c :: rest => needle.isPrefixOf (c :: rest) || charsInfixOf needle rest

/-- JS String.prototype.includes. -/
def jsIncludes (s sub : String) : Bool := charsInfixOf sub.data s.data

/-- Digit test for the numeric regular expression. -/
def jsIsDigit (c : Char) : Bool := '0' ≤ c && c ≤ '9'

/-- Body of the regular expression test on a character list without the
optional leading minus sign: digits, optionally followed by a dot and more
digits. -/
def numericBody (m : List Char) : Bool :=
  let ip := m.takeWhile jsIsDigit
  let rest := m.dropWhile jsIsDigit
  !ip.isEmpty &&
    (rest.isEmpty ||
      (rest.head? = some '.' && !rest.tail.isEmpty && rest.tail.all jsIsDigit))

/-- The regular expression test used by the source for numeric strings. -/
def numericRegexTest (s : String) : Bool :=
  match s.data with
  | '-' :: rest => numericBody rest
  | l => numericBody l

/-- Digits to a natural number. -/
def digitsToNat (l : List Char) : Nat :=
  l.foldl (fun a c => a * 10 + (c.toNat - 48)) 0

/-- Removal of trailing decimal zeros from a scaled decimal, so that equal
parsed numbers get equal representations. -/
def stripZeros : Int → Nat → Int × Nat
  | m, 0 => (m, 0)
  | m, e + 1 => if m % 10 = 0 then stripZeros (m / 10) e else (m, e + 1)

/-- Exact decimal value of an unsigned numeric character list, as a scaled
decimal pair (mantissa, decimal exponent). -/
def parseDecPos (m : List Char) : Int × Nat :=
  let ip := m.takeWhile jsIsDigit
  let rest := m.dropWhile jsIsDigit
  let fp := rest.tail.takeWhile jsIsDigit
  stripZeros (Int.ofNat (digitsToNat ip * 10 ^ fp.length + digitsToNat fp))
    fp.length

/-- JS parseFloat, applied only to strings that passed the numeric regular
expression, modelled as the exact decimal value mantissa / 10 ^ exponent
(the claims below depend only on the classification of a value as numeric,
never on binary float rounding). -/
def jsParseFloat (s : String) : Int × Nat :=
  match s.data with
  | '-' :: rest => let p := parseDecPos rest; (-p.1, p.2)
  | l => parseDecPos l

/-- Array.prototype.join: the parts concatenated with the separator
between adjacent parts. -/
def jsJoin (sep : String) : List String → String
  | [] => ""
  | [a] => a
  | a :: rest => a ++ sep ++ jsJoin sep rest

/-- Untyped JavaScript values as they flow through the filter pipeline.  A
number is an exact scaled decimal mant / 10 ^ exp (see jsParseFloat). -/
inductive JSV where
  | vnull
  | vundef
  | vnum (mant : Int) (exp : Nat)
  | vbool (b : Bool)
  | vstr (s : String)
  | varr (xs : List JSV)

/-- Zero padding on the left up to the given width. -/
def padZeros (s : String) (k : Nat) : String :=
  ⟨List.replicate (k - s.data.length) '0' ++ s.data⟩

/-- Decimal rendering of a scaled decimal number, matching the JS string
conversion of the exact decimal values produced here. -/
def decStr (mant : Int) (exp : Nat) : String :=
  if exp = 0 then toString mant
  else
    (if mant < 0 then "-" else "") ++ toString (mant.natAbs / 10 ^ exp) ++
      "." ++ padZeros (toString (mant.natAbs % 10 ^ exp)) exp

/-- JS truthiness of a value (arrays and objects are always truthy). -/
def jsTruthy : JSV → Bool
  | .vnull => false
  | .vundef => false
  | .vnum mant _ => !(mant = 0)
  | .vbool b => b
  | .vstr s => !(s = "")
  | .varr _ => true

/-- JS string conversion as used inside template literals. -/
def jsvToString : JSV → String
  | .vnull => "null"
  | .vundef => "undefined"
  | .vnum mant exp => decStr mant exp
  | .vbool b => if b then "true" else "false"
  | .vstr s => s
  | .varr xs => jsJoin "," (xs.map fun v =>
      match v with
      | .vstr s => s
      | .vnull => "null"
      | .vundef => "undefined"
      | .vnum mant exp => decStr mant exp
      | .vbool b => if b then "true" else "false"
      | .varr _ => "")

/-- The logic connector values. -/
inductive Lop where
  | AND
  | OR
deriving DecidableEq, Repr

/-- Display string of a connector. -/
def Lop.str : Lop → String
  | .AND => "AND"
  | .OR => "OR"

/-- JS pattern logic || defaulting an absent connector to AND. -/
def jsLogic : Option Lop → Lop
  | some l => l
  | none => .AND

/-- JS pattern str || default for optional strings where the empty string is
also falsy. -/
def jsStrOr (o : Option String) (d : String) : String :=
  match o with
  | some s => if s = "" then d else s
  | none => d

/-- JS pattern n || 1 on the optional minimum_should_match field. -/
def jsMsmOr1 (o : Option Nat) : Nat :=
  match o with
  | some n => if n = 0 then 1 else n
  | none => 1

-- ===========================================================================
-- Elasticsearch query documents
-- ===========================================================================

/-- One Elasticsearch query document as built by the frontend.  Every
constructor other than qBool stands for the single-key JSON object of the
same name; qBool stands for the object under the key bool, whose four
entries are present exactly when the corresponding field is some.  The
range bound object is an association list with JS object assignment
semantics (see objAssign). -/
inductive Q where
  | matchAll
  | qTerm (f : String) (v : JSV)
  | qMatch (f : String) (v : JSV)
  | qTerms (f : String) (vs : List JSV)
  | qExists (f : String)
  | qRange (f : String) (bounds : List (String × JSV))
  | qPref (f : String) (v : JSV)
  | qWildcard (f : String) (v : JSV) (caseInsensitive : Bool)
  | qQueryString (f : String) (v : JSV)
  | qBool (must : Option (List Q)) (should : Option (List Q))
      (mustNot : Option (List Q)) (msm : Option Nat)

/-- JS object assignment obj[k] = v on a dynamically keyed object. -/
def objAssign (obj : List (String × JSV)) (k : String) (v : JSV) :
    List (String × JSV) :=
  if obj.any (fun p => p.1 = k) then
    obj.map (fun p => if p.1 = k then (k, v) else p)
  else obj ++ [(k, v)]

/-- The top level output object of the query builders: query wrapped. -/
structure EsOut where
  query : Q

-- ===========================================================================
-- kibana-filter-utils.ts: input records
-- ===========================================================================

/-- SimpleFilter of kibana-filter-utils.ts.  The optional disabled flag is
modelled as Bool because the source only reads it through f.disabled ||
false.  The optional logic field keeps its absence observable. -/
structure SimpleFilter where
  field : String
  operator : String
  value : JSV := .vundef
  logic : Option Lop := none
  disabled : Bool := false
  minValue : JSV := .vundef
  maxValue : JSV := .vundef
  minOperator : Option String := none
  maxOperator : Option String := none

/-- Group metadata attached to a filter (GroupedFilterMetadata). -/
structure GroupMeta where
  groupId : String
  groupType : Lop
  isGroupStart : Bool
  isGroupEnd : Bool
deriving DecidableEq, Repr

/-- GroupedFilter: a SimpleFilter with optional group metadata. -/
structure GFilter extends SimpleFilter where
  groupMeta : Option GroupMeta := none

/-- FilterGroupDefinition of kibana-filter-utils.ts. -/
structure FilterGroupDefinition where
  id : String
  type : Lop
  filterIndices : List Nat
deriving DecidableEq, Repr

namespace KFU

/-- isNegatedOperator of kibana-filter-utils.ts. -/
def isNegatedOperator (operator : String) : Bool :=
  operator = "is_not" || operator = "does_not_exist" ||
    operator = "is_not_one_of"

/-- The isNumeric helper closed over by buildSingleFilterQuery: null,
undefined and the empty string are rejected, numbers accepted, strings
tested against the trimmed numeric regular expression. -/
def isNumeric (v : JSV) : Bool :=
  match v with
  | .vnull => false
  | .vundef => false
  | .vnum _ _ => true
  | .vstr s => if s = "" then false else numericRegexTest (jsTrim s)
  | _ => false

/-- The convertValue helper of buildSingleFilterQuery: keyword fields keep
the raw value, numeric values are parsed with parseFloat (the parse of a
regular-expression matched string is never NaN). -/
def convertValue (isKeyword : Bool) (v : JSV) : JSV :=
  if isKeyword then v
  else if isNumeric v then
    match v with
    | .vstr s => .vnum (jsParseFloat (jsTrim s)).1 (jsParseFloat (jsTrim s)).2
    | w => w
  else v

/-- The comma split used by the multi-value operators: an array is kept, a
string is split on commas and each part trimmed, any other value becomes a
one-element array. -/
def multiValues (v : JSV) : List JSV :=
  match v with
  | .varr xs => xs
  | .vstr s => (jsSplit s ',').map (fun t => JSV.vstr (jsTrim t))
  | w => [w]

/-- buildSingleFilterQuery of kibana-filter-utils.ts.  Returns none where
the source returns null. -/
def buildSingleFilterQuery (filter : SimpleFilter) : Option Q :=
  let field := filter.field
  let isKeyword := jsEndsWith field ".keyword"
  match filter.operator with
  | "is" =>
    if isKeyword || isNumeric filter.value then
      some (Q.qTerm field (convertValue isKeyword filter.value))
    else some (Q.qMatch field filter.value)
  | "is_not" =>
    if isKeyword || isNumeric filter.value then
      some (Q.qBool none none
        (some [Q.qTerm field (convertValue isKeyword filter.value)]) none)
    else some (Q.qBool none none (some [Q.qMatch field filter.value]) none)
  | "is_one_of" => some (Q.qTerms field (multiValues filter.value))
  | "is_not_one_of" =>
    some (Q.qBool none none
      (some [Q.qTerms field (multiValues filter.value)]) none)
  | "exists" => some (Q.qExists field)
  | "does_not_exist" =>
    some (Q.qBool none none (some [Q.qExists field]) none)
  | "range" =>
    let rq : List (String × JSV) := []
    let rq := if jsTruthy filter.minValue then
        objAssign rq (jsStrOr filter.minOperator "gt")
          (convertValue isKeyword filter.minValue)
      else rq
    let rq := if jsTruthy filter.maxValue then
        objAssign rq (jsStrOr filter.maxOperator "lt")
          (convertValue isKeyword filter.maxValue)
      else rq
    if rq.length > 0 then some (Q.qRange field rq) else none
  | "prefix" =>
    if !jsTruthy filter.value then none
    else if isKeyword then some (Q.qPref field filter.value)
    else some (Q.qWildcard field
      (.vstr (jsvToString filter.value ++ "*")) true)
  | "wildcard" =>
    if !jsTruthy filter.value then none
    else some (Q.qWildcard field filter.value true)
  | "query_string" =>
    if !jsTruthy filter.value then none
    else some (Q.qQueryString field filter.value)
  | _ => none

/-- The meta plus query record produced by toKibanaFilter (KibanaFilter).
The meta type string is always the literal phrase and is omitted. -/
structure KFilter where
  metaField : String
  metaParams : JSV
  negate : Bool
  disabled : Bool
  query : Option Q

/-- toKibanaFilter of kibana-filter-utils.ts. -/
def toKibanaFilter (simpleFilter : SimpleFilter) : KFilter :=
  { metaField := simpleFilter.field
    metaParams := simpleFilter.value
    negate := isNegatedOperator simpleFilter.operator
    disabled := simpleFilter.disabled
    query := buildSingleFilterQuery simpleFilter }

end KFU

-- ===========================================================================
-- kibana-filter-utils.ts: AST and query generation
-- ===========================================================================

/-- FilterASTNode (also covering the GroupAwareASTNode shapes that the
grouped builders actually construct): a leaf carrying an optional
KibanaFilter, or a bool branch with optional must, should and must_not
child lists and an optional minimum_should_match. -/
inductive FAst where
  | filt (f : Option KFU.KFilter)
  | node (must : Option (List FAst)) (should : Option (List FAst))
      (mustNot : Option (List FAst)) (msm : Option Nat)

namespace KFU

/-- isEmptyQuery of kibana-filter-utils.ts: the match_all sentinel (the
compiled documents are never null at this point, so only the sentinel
test matters). -/
def isEmptyQuery : Q → Bool
  | .matchAll => true
  | _ => false

mutual

/-- astToEsQuery of kibana-filter-utils.ts on a non-null node. -/
def astToEs : FAst → Q
  | .filt none => .matchAll
  | .filt (some f) =>
    let query := match f.query with
      | some q => q
      | none => Q.matchAll
    if f.negate then Q.qBool none none (some [query]) none else query
  | .node must should mustNot msm =>
    let mustQ := match must with
      | none => none
      | some l => some ((astToEsList l).filter (fun q => !isEmptyQuery q))
    let shouldQ := match should with
      | none => none
      | some l => some ((astToEsList l).filter (fun q => !isEmptyQuery q))
    let mustNotQ := match mustNot with
      | none => none
      | some l => some ((astToEsList l).filter (fun q => !isEmptyQuery q))
    let bMust : Option (List Q) := match mustQ with
      | some (q :: qs) => some (q :: qs)
      | _ => none
    let bShould : Option (List Q) := match shouldQ with
      | some (q :: qs) => some (q :: qs)
      | _ => none
    let bMustNot : Option (List Q) := match mustNotQ with
      | some (q :: qs) => some (q :: qs)
      | _ => none
    let bMsm : Option Nat := match bShould with
      | some _ => some (jsMsmOr1 msm)
      | none => none
    match bMust, bShould, bMustNot with
    | none, none, none => Q.matchAll
    | _, _, _ => Q.qBool bMust bShould bMustNot bMsm

/-- Child-list compilation used by astToEs. -/
def astToEsList : List FAst → List Q
  | [] => []
  | a :: as => astToEs a :: astToEsList as

end

/-- astToEsQuery including the null case. -/
def astToEsQuery : Option FAst → Q
  | none => .matchAll
  | some a => astToEs a

/-- The compiled document of one simple filter when it appears as a leaf of
the AST (including the negation wrapping of astToEsQuery). -/
def leafDoc (f : SimpleFilter) : Q :=
  astToEs (.filt (some (toKibanaFilter f)))

/-- One iteration of the loop of buildASTLeftAssociative: result is the
accumulated node, nextF the next filter, op the operator connecting it to
the previous filter and changed the operatorChanged flag of the source. -/
def alaStep (result : FAst) (nextF : KFilter) (op : Lop) (changed : Bool) :
    FAst :=
  let next : FAst := .filt (some nextF)
  match op with
  | .OR =>
    if changed then FAst.node none (some [result, next]) none (some 1)
    else
      match result with
      | .node m (some sh) mn msm => FAst.node m (some (sh ++ [next])) mn msm
      | _ => FAst.node none (some [result, next]) none (some 1)
  | .AND =>
    if changed then FAst.node (some [result, next]) none none none
    else
      match result with
      | .node (some mu) s mn msm => FAst.node (some (mu ++ [next])) s mn msm
      | _ => FAst.node (some [result, next]) none none none

/-- The loop of buildASTLeftAssociative, threading the previous operator so
that operatorChanged = prevOperator && prevOperator !== operator.  The
caller always supplies exactly one operator per remaining filter. -/
def alaLoop (result : FAst) (rest : List KFilter) (ops : List Lop)
    (prevOp : Option Lop) : FAst :=
  match rest, ops with
  | nextF :: rest, op :: ops =>
    let changed := match prevOp with
      | some p => decide (p ≠ op)
      | none => false
    alaLoop (alaStep result nextF op changed) rest ops (some op)
  | _, _ => result

/-- buildASTLeftAssociative of kibana-filter-utils.ts. -/
def buildASTLeftAssociative (filters : List KFilter) (operators : List Lop) :
    Option FAst :=
  match filters with
  | [] => none
  | [f] => some (.filt (some f))
  | f :: rest => some (alaLoop (.filt (some f)) rest operators none)

/-- buildFilterASTWithOperators of kibana-filter-utils.ts: drop disabled
filters, convert to Kibana filters, collect operators (operators[i-1] is
the logic field of enabled filter i, defaulting to AND) and fold. -/
def buildFilterASTWithOperators (filters : List SimpleFilter) :
    Option FAst :=
  match filters with
  | [] => none
  | _ =>
    let enabledFilters := filters.filter (fun f => !f.disabled)
    match enabledFilters with
    | [] => none
    | _ =>
      let kibanaFilters := enabledFilters.map toKibanaFilter
      let operators := (enabledFilters.drop 1).map (fun f => jsLogic f.logic)
      buildASTLeftAssociative kibanaFilters operators

/-- buildEsQueryFromFilters of kibana-filter-utils.ts. -/
def buildEsQueryFromFilters (filters : List SimpleFilter) : EsOut :=
  match filters with
  | [] => { query := .matchAll }
  | _ =>
    match buildFilterASTWithOperators filters with
    | none => { query := .matchAll }
    | some ast => { query := astToEs ast }

-- ===========================================================================
-- kibana-filter-utils.ts: preview generation
-- ===========================================================================

/-- getRangeOperatorSymbol of kibana-filter-utils.ts. -/
def getRangeOperatorSymbol (op : String) : String :=
  if op = "gt" then ">"
  else if op = "gte" then ">="
  else if op = "lt" then "<"
  else if op = "lte" then "<="
  else op

/-- The value || dash rendering used all over formatFilterText. -/
def valOrDash (v : JSV) : String :=
  if jsTruthy v then jsvToString v else "-"

/-- formatFilterText of kibana-filter-utils.ts. -/
def formatFilterText (filter : SimpleFilter) : String :=
  let isNegated := isNegatedOperator filter.operator
  let filterText :=
    if filter.operator = "exists" then filter.field ++ ": exists"
    else if filter.operator = "does_not_exist" then
      filter.field ++ ": exists"
    else if filter.operator = "range" then
      let rangeParts : List String :=
        (if jsTruthy filter.minValue then
          [getRangeOperatorSymbol (jsStrOr filter.minOperator "gt") ++ " " ++
            jsvToString filter.minValue]
        else []) ++
        (if jsTruthy filter.maxValue then
          [getRangeOperatorSymbol (jsStrOr filter.maxOperator "lt") ++ " " ++
            jsvToString filter.maxValue]
        else [])
      if rangeParts.length > 0 then
        filter.field ++ ": " ++ jsJoin " and " rangeParts
      else filter.field ++ ": -"
    else if filter.operator = "prefix" then
      filter.field ++ ": prefix \"" ++ valOrDash filter.value ++ "\""
    else if filter.operator = "wildcard" then
      filter.field ++ ": wildcard \"" ++ valOrDash filter.value ++ "\""
    else if filter.operator = "query_string" then
      filter.field ++ ": query_string \"" ++ valOrDash filter.value ++ "\""
    else filter.field ++ ": " ++ valOrDash filter.value
  if isNegated then "NOT " ++ filterText else filterText

/-- The loop of buildPreviewWithGrouping for mixed operators: needsParens =
prevOperator && prevOperator !== operator, exactly as in the source. -/
def previewLoop (result : String) (rest : List String) (ops : List Lop)
    (prevOp : Option Lop) : String :=
  match rest, ops with
  | nextText :: rest, op :: ops =>
    let needsParens := match prevOp with
      | some p => decide (p ≠ op)
      | none => false
    let result :=
      if needsParens then "(" ++ result ++ ") " ++ op.str ++ " " ++ nextText
      else result ++ " " ++ op.str ++ " " ++ nextText
    previewLoop result rest ops (some op)
  | _, _ => result

/-- buildPreviewWithGrouping of kibana-filter-utils.ts over the expression
texts with their preceding operators (operator none on the first). -/
def buildPreviewWithGrouping
    (expressions : List (String × Option Lop)) : String :=
  match expressions with
  | [] => ""
  | [e] => e.1
  | e :: rest =>
    let operators := rest.map (fun p => jsLogic p.2)
    let allSame := match operators with
      | [] => true
      | o :: os => os.all (fun x => x = o)
    if allSame then
      jsJoin " "
        (e.1 :: rest.map (fun p => (jsLogic p.2).str ++ " " ++ p.1))
    else previewLoop e.1 (rest.map (fun p => p.1)) operators none

/-- buildPreviewString of kibana-filter-utils.ts. -/
def buildPreviewString (filters : List SimpleFilter) : String :=
  match filters with
  | [] => ""
  | _ =>
    let enabledFilters := filters.filter (fun f => !f.disabled)
    match enabledFilters with
    | [] => ""
    | e :: rest =>
      buildPreviewWithGrouping
        ((formatFilterText e, none) ::
          rest.map (fun f => (formatFilterText f, some (jsLogic f.logic))))

end KFU

-- ===========================================================================
-- kibana-filter-utils.ts: grouped AST builders
-- ===========================================================================

/-- Math.min over a spread index list (none for the empty list, where JS
yields Infinity; the call sites below treat none accordingly). -/
def natMin? : List Nat → Option Nat
  | [] => none
  | x :: xs => some (xs.foldl Nat.min x)

/-- Math.max over a spread index list. -/
def natMax? : List Nat → Option Nat
  | [] => none
  | x :: xs => some (xs.foldl Nat.max x)

/-- Comparison of optional group start indices where none plays the role of
the JS Infinity produced by Math.min of an empty spread. -/
def startLt : Option Nat → Option Nat → Bool
  | some a, some b => a < b
  | some _, none => true
  | none, _ => false

/-- Stable insertion used to model the JS stable sort by comparator. -/
def insertSorted {α : Type} (lt : α → α → Bool) (x : α) :
    List α → List α
  | [] => [x]
  | y :: ys => if lt x y then x :: y :: ys else y :: insertSorted lt x ys

/-- Stable sort by comparator, modelling Array.prototype.sort. -/
def stableSort {α : Type} (lt : α → α → Bool) (l : List α) : List α :=
  l.foldl (fun acc x => insertSorted lt x acc) []

namespace KFU

/-- A segment of buildASTWithGroups: one explicit group with its index
range, or a maximal run of ungrouped filter indices. -/
inductive Seg where
  | gseg (group : FilterGroupDefinition) (startIdx endIdx : Nat)
  | fseg (startIdx endIdx : Nat)
deriving Repr

/-- Start index of a segment. -/
def Seg.startIdx : Seg → Nat
  | .gseg _ s _ => s
  | .fseg s _ => s

/-- One loop step of buildFlatAST: exactly the OR-extend / OR-wrap /
AND-extend / AND-wrap cases of the source (the two AND wrap branches of
the source build the same node and are merged). -/
def flatStep (result : FAst) (nextF : KFilter) (op : Lop) : FAst :=
  let next : FAst := .filt (some nextF)
  match op with
  | .OR =>
    match result with
    | .node m (some sh) mn msm => FAst.node m (some (sh ++ [next])) mn msm
    | _ => FAst.node none (some [result, next]) none (some 1)
  | .AND =>
    match result with
    | .node (some mu) s mn msm => FAst.node (some (mu ++ [next])) s mn msm
    | _ => FAst.node (some [result, next]) none none none

/-- buildFlatAST of kibana-filter-utils.ts.  The source iterates indices
startIdx..endIdx over the filter array; this embedding folds over the
corresponding slice, which visits exactly the same elements whenever the
caller keeps the range inside the array (as all call sites do). -/
def buildFlatAST (fs : List GFilter) (startIdx endIdx : Nat) : FAst :=
  match (fs.drop startIdx).take (endIdx + 1 - startIdx) with
  | [] => FAst.filt none
  | f :: rest =>
    rest.foldl
      (fun result g =>
        flatStep result (toKibanaFilter g.toSimpleFilter) (jsLogic g.logic))
      (FAst.filt (some (toKibanaFilter f.toSimpleFilter)))

/-- buildGroupNode of kibana-filter-utils.ts.  The empty fallback of the
source is the dummy leaf with an empty meta object, whose negate and query
read as falsy and undefined. -/
def buildGroupNode (fs : List GFilter) (group : FilterGroupDefinition) :
    FAst :=
  let groupFilters :=
    (group.filterIndices.filter (fun idx => idx < fs.length)).map
      (fun idx =>
        FAst.filt ((fs.get? idx).map (fun f => toKibanaFilter f.toSimpleFilter)))
  match groupFilters with
  | [] => FAst.filt (some
      { metaField := "", metaParams := .vundef, negate := false,
        disabled := false, query := none })
  | [x] => x
  | _ =>
    if group.type = .OR then FAst.node none (some groupFilters) none (some 1)
    else FAst.node (some groupFilters) none none none

/-- The while loop of buildASTWithGroups building the ordered segment list.
The fuel argument bounds the iteration count; each iteration advances the
current index by at least one, so fuel endIdx + 1 - startIdx (what the
top-level call passes) always suffices. -/
def segLoop (sortedGroups : List FilterGroupDefinition) (endIdx : Nat) :
    Nat → Nat → List Seg
  | 0, _ => []
  | fuel + 1, currentIdx =>
    if currentIdx ≤ endIdx then
      match sortedGroups.find?
          (fun g => natMin? g.filterIndices = some currentIdx) with
      | some group =>
        let groupEnd := (natMax? group.filterIndices).getD currentIdx
        Seg.gseg group currentIdx groupEnd ::
          segLoop sortedGroups endIdx fuel (groupEnd + 1)
      | none =>
        let nextGroupStart := natMin?
          ((sortedGroups.filterMap (fun g => natMin? g.filterIndices)).filter
            (fun i => currentIdx < i))
        let segmentEnd := match nextGroupStart with
          | some s => Nat.min (s - 1) endIdx
          | none => endIdx
        Seg.fseg currentIdx segmentEnd ::
          segLoop sortedGroups endIdx fuel (segmentEnd + 1)
    else []

/-- The subtree built for one segment. -/
def segToNode (fs : List GFilter) : Seg → FAst
  | .gseg g _ _ => buildGroupNode fs g
  | .fseg s e => buildFlatAST fs s e

/-- The joining operator the combine loop reads for a segment: the logic
field of the filter at the segment start, defaulting to AND. -/
def segFirstOp (fs : List GFilter) (seg : Seg) : Lop :=
  jsLogic ((fs.get? seg.startIdx).bind (fun f => f.logic))

/-- The combine loop of buildASTWithGroups: every step wraps the running
result and the next segment subtree in a fresh two-child bool node. -/
def combineSegs (fs : List GFilter) (result : FAst) : List Seg → FAst
  | [] => result
  | seg :: rest =>
    let operator := segFirstOp fs seg
    let nextNode := segToNode fs seg
    let result := match operator with
      | .OR => FAst.node none (some [result, nextNode]) none (some 1)
      | .AND => FAst.node (some [result, nextNode]) none none none
    combineSegs fs result rest

/-- buildASTWithGroups of kibana-filter-utils.ts. -/
def buildASTWithGroups (fs : List GFilter)
    (groups : List FilterGroupDefinition) (startIdx endIdx : Nat) : FAst :=
  let sortedGroups := stableSort
    (fun a b => startLt (natMin? a.filterIndices) (natMin? b.filterIndices))
    groups
  let segments := segLoop sortedGroups endIdx (endIdx + 1 - startIdx) startIdx
  match segments with
  | [] => FAst.filt none
  | [seg] => segToNode fs seg
  | seg :: rest => combineSegs fs (segToNode fs seg) rest

/-- buildGroupedASTRecursive of kibana-filter-utils.ts.  The range check on
a group mirrors the JS comparison where Math.min of an empty spread is
Infinity and Math.max is negative Infinity. -/
def buildGroupedASTRecursive (fs : List GFilter)
    (groups : List FilterGroupDefinition) (startIdx endIdx : Nat) :
    Option FAst :=
  if endIdx < startIdx then none
  else if startIdx = endIdx then
    some (FAst.filt ((fs.get? startIdx).map
      (fun f => toKibanaFilter f.toSimpleFilter)))
  else
    let groupsInRange := groups.filter (fun g =>
      (match natMin? g.filterIndices with
        | some a => startIdx ≤ a
        | none => true) &&
      (match natMax? g.filterIndices with
        | some b => b ≤ endIdx
        | none => true))
    match groupsInRange with
    | [] => some (buildFlatAST fs startIdx endIdx)
    | _ => some (buildASTWithGroups fs groupsInRange startIdx endIdx)

/-- buildGroupedAST of kibana-filter-utils.ts. -/
def buildGroupedAST (fs : List GFilter)
    (groups : List FilterGroupDefinition) : Option FAst :=
  match fs with
  | [] => none
  | _ =>
    let enabledFilters := fs.filter (fun f => !f.disabled)
    match enabledFilters with
    | [] => none
    | [f] => some (.filt (some (toKibanaFilter f.toSimpleFilter)))
    | _ =>
      buildGroupedASTRecursive enabledFilters groups 0
        (enabledFilters.length - 1)

end KFU

-- ===========================================================================
-- filter-ast.service.ts
-- ===========================================================================

/-- FilterClause of the filter builder model. -/
structure FilterClause where
  id : String
  field : String
  operator : String
  value : JSV := .vundef
  values : Option (List JSV) := none
  minValue : JSV := .vundef
  maxValue : JSV := .vundef
  minOperator : Option String := none
  maxOperator : Option String := none

/-- The AST of the filter builder service: clause leaves and operator
groups. -/
inductive SAst where
  | clause (c : FilterClause)
  | group (operator : Lop) (children : List SAst)

namespace FAS

/-- The private isNumeric of FilterAstService (same body as the utils
helper). -/
def isNumeric (v : JSV) : Bool :=
  match v with
  | .vnull => false
  | .vundef => false
  | .vnum _ _ => true
  | .vstr s => if s = "" then false else numericRegexTest (jsTrim s)
  | _ => false

/-- The private convertValue of FilterAstService. -/
def convertValue (v : JSV) (isKeyword : Bool) : JSV :=
  if isKeyword then v
  else if isNumeric v then
    match v with
    | .vstr s => .vnum (jsParseFloat (jsTrim s)).1 (jsParseFloat (jsTrim s)).2
    | w => w
  else v

/-- The bound presence test of the service range branch: defined and not
the empty string (unlike the utils builder this keeps a zero bound). -/
def boundPresent (v : JSV) : Bool :=
  match v with
  | .vundef => false
  | .vstr s => !(s = "")
  | _ => true

/-- clauseToQueryDSL of FilterAstService. -/
def clauseToQueryDSL (clause : FilterClause) : Q :=
  if clause.field = "" then .matchAll
  else
    let field := clause.field
    let isKeyword := jsEndsWith field ".keyword"
    if clause.operator = "is" then
      if isKeyword || isNumeric clause.value then
        Q.qTerm field (convertValue clause.value isKeyword)
      else Q.qMatch field clause.value
    else if clause.operator = "is_not" then
      if isKeyword || isNumeric clause.value then
        Q.qBool none none
          (some [Q.qTerm field (convertValue clause.value isKeyword)]) none
      else Q.qBool none none (some [Q.qMatch field clause.value]) none
    else if clause.operator = "is_one_of" then
      Q.qTerms field (match clause.values with
        | some vs => vs
        | none => if jsTruthy clause.value then [clause.value] else [])
    else if clause.operator = "is_not_one_of" then
      Q.qBool none none
        (some [Q.qTerms field (match clause.values with
          | some vs => vs
          | none => if jsTruthy clause.value then [clause.value] else [])])
        none
    else if clause.operator = "exists" then Q.qExists field
    else if clause.operator = "does_not_exist" then
      Q.qBool none none (some [Q.qExists field]) none
    else if clause.operator = "range" then
      let rq : List (String × JSV) := []
      let rq := if boundPresent clause.minValue then
          objAssign rq (jsStrOr clause.minOperator "gte")
            (convertValue clause.minValue isKeyword)
        else rq
      let rq := if boundPresent clause.maxValue then
          objAssign rq (jsStrOr clause.maxOperator "lte")
            (convertValue clause.maxValue isKeyword)
        else rq
      if rq.length > 0 then Q.qRange field rq else Q.matchAll
    else if clause.operator = "prefix" then
      if isKeyword then Q.qPref field clause.value
      else Q.qWildcard field (.vstr (jsvToString clause.value ++ "*")) true
    else if clause.operator = "wildcard" then
      Q.qWildcard field clause.value true
    else if clause.operator = "query_string" then
      Q.qQueryString field clause.value
    else Q.matchAll

mutual

/-- toQueryDSLRecursive of FilterAstService. -/
def toQueryDSLRecursive : SAst → Q
  | .clause c => clauseToQueryDSL c
  | .group operator children =>
    match (toQueryDSLListS children).filter
        (fun q => !KFU.isEmptyQuery q) with
    | [] => Q.matchAll
    | [q] => q
    | qs =>
      if operator = .OR then Q.qBool none (some qs) none (some 1)
      else Q.qBool (some qs) none none none

/-- Child compilation of toQueryDSLRecursive. -/
def toQueryDSLListS : List SAst → List Q
  | [] => []
  | a :: as => toQueryDSLRecursive a :: toQueryDSLListS as

end

end FAS

-- ===========================================================================
-- kibana-filter-bar.component.ts: inline updatePreview and generateQueryDSL
-- ===========================================================================

namespace KFB

/-- normalizeOperator of the component: map lookup with fallback to the
argument. -/
def normalizeOperator (operator : String) : String :=
  let m : List (String × String) :=
    [("is", "is"), ("isNot", "is_not"), ("is_not", "is_not"),
     ("terms", "is_one_of"), ("is_one_of", "is_one_of"),
     ("notTerms", "is_not_one_of"), ("is_not_one_of", "is_not_one_of"),
     ("exists", "exists"), ("notExists", "does_not_exist"),
     ("does_not_exist", "does_not_exist"), ("range", "range"),
     ("prefix", "prefix"), ("wildcard", "wildcard"),
     ("query_string", "query_string"), ("queryString", "query_string")]
  match m.find? (fun p => p.1 = operator) with
  | some p => p.2
  | none => operator

/-- The isDateField helper of the inline generateQueryDSL. -/
def isDateField (field : String) : Bool :=
  field = "@timestamp" || jsIncludes (jsToLower field) "date" ||
    jsIncludes (jsToLower field) "time"

/-- The isNumericValue helper of the inline generateQueryDSL (same body as
the utils helper). -/
def isNumericValue (v : JSV) : Bool :=
  match v with
  | .vnull => false
  | .vundef => false
  | .vnum _ _ => true
  | .vstr s => if s = "" then false else numericRegexTest (jsTrim s)
  | _ => false

/-- The convertValue helper of the inline generateQueryDSL. -/
def convertValue (isKeyword : Bool) (v : JSV) : JSV :=
  if isKeyword then v
  else if isNumericValue v then
    match v with
    | .vstr s => .vnum (jsParseFloat (jsTrim s)).1 (jsParseFloat (jsTrim s)).2
    | w => w
  else v

/-- The per-filter switch of the inline generateQueryDSL; none models every
early return that skips the filter.  The comma splitting of the multi
value operators is byte for byte the one of the utils module
(KFU.multiValues). -/
def perFilterQuery (filter : SimpleFilter) : Option Q :=
  if filter.field = "" || filter.operator = "" then none
  else
    let field := filter.field
    let isKeyword := jsEndsWith field ".keyword"
    let no := normalizeOperator filter.operator
    if no = "is" then
      if isKeyword || isDateField field || isNumericValue filter.value then
        some (Q.qTerm field (convertValue isKeyword filter.value))
      else some (Q.qMatch field filter.value)
    else if no = "is_not" then
      if isKeyword || isDateField field || isNumericValue filter.value then
        some (Q.qBool none none
          (some [Q.qTerm field (convertValue isKeyword filter.value)]) none)
      else some (Q.qBool none none (some [Q.qMatch field filter.value]) none)
    else if no = "is_one_of" then
      some (Q.qTerms field (KFU.multiValues filter.value))
    else if no = "is_not_one_of" then
      some (Q.qBool none none
        (some [Q.qTerms field (KFU.multiValues filter.value)]) none)
    else if no = "exists" then some (Q.qExists field)
    else if no = "does_not_exist" then
      some (Q.qBool none none (some [Q.qExists field]) none)
    else if no = "range" then
      let rq : List (String × JSV) := []
      let rq := if jsTruthy filter.minValue then
          objAssign rq (jsStrOr filter.minOperator "gt")
            (convertValue isKeyword filter.minValue)
        else rq
      let rq := if jsTruthy filter.maxValue then
          objAssign rq (jsStrOr filter.maxOperator "lt")
            (convertValue isKeyword filter.maxValue)
        else rq
      if rq.length > 0 then some (Q.qRange field rq) else none
    else if no = "prefix" then
      if !jsTruthy filter.value then none
      else if isKeyword then some (Q.qPref field filter.value)
      else some (Q.qWildcard field
        (.vstr (jsvToString filter.value ++ "*")) true)
    else if no = "wildcard" then
      if !jsTruthy filter.value then none
      else some (Q.qWildcard field filter.value true)
    else if no = "query_string" then
      if !jsTruthy filter.value then none
      else some (Q.qQueryString field filter.value)
    else none

/-- The grouping loop of the inline generateQueryDSL: OR joins the current
group, AND closes it (a one-element group is pushed bare, a longer one is
wrapped in bool should with minimum_should_match 1). -/
def dslGroupLoop (groups currentGroup : List Q) :
    List (Q × Lop) → List Q × List Q
  | [] => (groups, currentGroup)
  | (q, logic) :: rest =>
    match logic with
    | .OR => dslGroupLoop groups (currentGroup ++ [q]) rest
    | .AND =>
      match currentGroup with
      | [] => dslGroupLoop groups [] rest
      | [single] => dslGroupLoop (groups ++ [single]) [q] rest
      | cg =>
        dslGroupLoop
          (groups ++ [Q.qBool none (some cg) none (some 1)]) [q] rest

/-- generateQueryDSL of the component (the inline implementation). -/
def generateQueryDSL (filters : List SimpleFilter) : EsOut :=
  let queries := filters.filterMap
    (fun f => (perFilterQuery f).map (fun q => (q, jsLogic f.logic)))
  let state := match queries with
    | [] => (([] : List Q), ([] : List Q))
    | (q, _) :: rest => dslGroupLoop [] [q] rest
  let groups := match state.2 with
    | [] => state.1
    | [single] => state.1 ++ [single]
    | cg => state.1 ++ [Q.qBool none (some cg) none (some 1)]
  match groups with
  | [g] =>
    match g with
    | Q.qBool _ (some sh) _ msm =>
      { query := Q.qBool none (some sh) none (some (jsMsmOr1 msm)) }
    | _ => { query := g }
  | [] => { query := Q.qBool none none none none }
  | gs => { query := Q.qBool (some gs) none none none }

/-- getRangeOperatorLabel of the component. -/
def getRangeOperatorLabel (operator : String) : String :=
  if operator = "gt" then "Greater Than"
  else if operator = "gte" then "Greater Than/Equal To"
  else if operator = "lt" then "Less Than"
  else if operator = "lte" then "Less Than/Equal To"
  else operator

/-- The per-filter expression of the inline updatePreview: display text,
the raw logic slot (none models the empty string stored for index zero)
and the hasNot flag. -/
def previewExpr (filter : SimpleFilter) (isFirst : Bool) :
    String × Option Lop × Bool :=
  let no := normalizeOperator filter.operator
  let dash := fun (v : JSV) => if jsTruthy v then jsvToString v else "-"
  let (text, hasNot) :=
    if no = "exists" then (filter.field ++ ": exists", false)
    else if no = "does_not_exist" then (filter.field ++ ": exists", true)
    else if no = "range" then
      let rangeParts : List String :=
        (if jsTruthy filter.minValue then
          [getRangeOperatorLabel (jsStrOr filter.minOperator "gt") ++ " " ++
            jsvToString filter.minValue]
        else []) ++
        (if jsTruthy filter.maxValue then
          [getRangeOperatorLabel (jsStrOr filter.maxOperator "lt") ++ " " ++
            jsvToString filter.maxValue]
        else [])
      (if rangeParts.length > 0 then
        filter.field ++ ": " ++ jsJoin " and " rangeParts
      else filter.field ++ ": -", false)
    else if no = "prefix" then
      (filter.field ++ ": prefix \"" ++ dash filter.value ++ "\"", false)
    else if no = "wildcard" then
      (filter.field ++ ": wildcard \"" ++ dash filter.value ++ "\"", false)
    else if no = "query_string" then
      (filter.field ++ ": query_string \"" ++ dash filter.value ++ "\"",
        false)
    else if no = "is_not" then
      (filter.field ++ ": " ++ dash filter.value, true)
    else if jsTruthy filter.value then
      (filter.field ++ ": " ++ jsvToString filter.value, false)
    else (filter.field ++ ": -", false)
  (text, if isFirst then none else some (jsLogic filter.logic), hasNot)

/-- The expression list of the inline updatePreview: filters without a
field or operator are skipped, and the logic slot of the filter at array
index zero is the empty string. -/
def previewExprs (filters : List SimpleFilter) :
    List (String × Option Lop × Bool) :=
  (filters.enum.filter (fun p => !(p.2.field = "" || p.2.operator = ""))).map
    (fun p => previewExpr p.2 (p.1 = 0))

/-- The grouping loop of the inline updatePreview: an expression whose
logic slot is OR joins the current group, anything else closes it. -/
def previewGroupLoop {α : Type} (logicOf : α → Option Lop)
    (groups : List (List α)) (current : List α) :
    List α → List (List α)
  | [] => if current.isEmpty then groups else groups ++ [current]
  | x :: rest =>
    if logicOf x = some .OR then
      previewGroupLoop logicOf groups (current ++ [x]) rest
    else previewGroupLoop logicOf (groups ++ [current]) [x] rest

/-- One rendered part of the inline preview text. -/
def renderExpr (e : String × Option Lop × Bool) : String :=
  if e.2.2 then "NOT " ++ e.1 else e.1

/-- The textParts built by the inline updatePreview, joined with single
spaces at the end; the AND and OR separators carry their own leading
space, which is where the double spaces of the inline preview come from. -/
def updatePreviewText (filters : List SimpleFilter) : String :=
  let exprs := previewExprs filters
  match exprs with
  | [] => ""
  | e :: rest =>
    let grps := previewGroupLoop (fun x => x.2.1) [] [e] rest
    let parts := grps.enum.flatMap (fun p =>
      (if p.1 > 0 then [" AND"] else []) ++
      match p.2 with
      | [x] => [renderExpr x]
      | xs =>
        ["("] ++
          (xs.enum.flatMap (fun q =>
            (if q.1 > 0 then [" OR"] else []) ++ [renderExpr q.2])) ++
        [")"]
      )
    jsJoin " " parts

end KFB

-- ===========================================================================
-- filter-group-manager.component.ts
-- ===========================================================================

/-- The state owned by the group manager component: the filter pills, the
group definitions and the selection bookkeeping.  Emitting groupsChanged
or filtersChanged is modelled as the new state (the parent feeds the
emitted arrays straight back through the component inputs). -/
structure GMState where
  filters : List GFilter
  groups : List FilterGroupDefinition
  selectedIndices : List Nat
  lastClickedIndex : Option Nat

/-- Click modifier of selectFilter. -/
inductive ClickMod where
  | plain
  | ctrl
  | shift
deriving DecidableEq, Repr

namespace FGM

/-- The contiguity check of createGroupFromSelection over the sorted
selection: every index is one more than its predecessor. -/
def chainSucc : List Nat → Bool
  | [] => true
  | [_] => true
  | x :: y :: r => (y = x + 1) && chainSucc (y :: r)

/-- updateFilterMetadata of the component: the filters at the given
indices receive the group metadata, the first and last index getting the
start and end tags.  The source iterates the index list and skips indices
beyond the filter array; mapping over filter positions visits the same
cells. -/
def updateFilterMetadata (filters : List GFilter) (indices : List Nat)
    (groupId : String) (groupType : Lop) : List GFilter :=
  filters.enum.map (fun p =>
    if indices.contains p.1 then
      let meta : GroupMeta :=
        { groupId := groupId
          groupType := groupType
          isGroupStart := decide (indices.head? = some p.1)
          isGroupEnd := decide (indices.getLast? = some p.1) }
      { p.2 with groupMeta := some meta }
    else p.2)

/-- The console.warn text of the non-contiguous branch. -/
def nonContiguousWarning : String :=
  "Cannot create group with non-contiguous filters"

/-- createGroupFromSelection of the component.  The group id produced from
Date.now and Math.random is a parameter; the returned list collects the
console.warn messages of the call. -/
def createGroupFromSelection (st : GMState) (type : Lop)
    (groupId : String) : GMState × List String :=
  if st.selectedIndices.length < 2 then (st, [])
  else
    let sortedIndices := stableSort (fun a b => a < b) st.selectedIndices
    if !chainSucc sortedIndices then (st, [nonContiguousWarning])
    else
      let newGroup : FilterGroupDefinition :=
        { id := groupId, type := type, filterIndices := sortedIndices }
      let filteredGroups := st.groups.filter (fun g =>
        !(sortedIndices.any (fun idx => g.filterIndices.contains idx)))
      let updatedGroups := filteredGroups ++ [newGroup]
      let filters' :=
        updateFilterMetadata st.filters sortedIndices groupId type
      ({ filters := filters', groups := updatedGroups,
         selectedIndices := [], lastClickedIndex := none }, [])

/-- removeGroup of the component: clear the metadata of the member cells
and drop the group. -/
def removeGroup (st : GMState) (groupId : String) : GMState :=
  match st.groups.find? (fun g => g.id = groupId) with
  | none => st
  | some group =>
    let filters' := st.filters.enum.map (fun p =>
      if group.filterIndices.contains p.1 then
        { p.2 with groupMeta := none }
      else p.2)
    let groups' := st.groups.filter (fun g => !(g.id = groupId))
    { st with filters := filters', groups := groups' }

/-- removeFilter of the component.  Only the group bookkeeping and the
selection are updated here; deleting the filter row itself is the job of
the parent listening to filterRemoved. -/
def removeFilter (st : GMState) (index : Nat) : GMState :=
  let core :=
    match (st.filters.get? index).bind (fun f => f.groupMeta) with
    | none => st
    | some meta =>
      if meta.groupId = "" then st
      else
        match st.groups.find? (fun (g : FilterGroupDefinition) => g.id = meta.groupId) with
        | none => st
        | some group =>
          let updatedIndices :=
            (group.filterIndices.filter (fun idx => !(idx = index))).map
              (fun idx => if index < idx then idx - 1 else idx)
          if updatedIndices.length < 2 then removeGroup st meta.groupId
          else
            { st with groups := st.groups.map (fun (g : FilterGroupDefinition) =>
                if g.id = meta.groupId then
                  { group with filterIndices := updatedIndices }
                else g) }
  { core with selectedIndices := [], lastClickedIndex := none }

/-- selectFilter of the component. -/
def selectFilter (st : GMState) (index : Nat) (modifier : ClickMod) :
    GMState :=
  let sel :=
    match modifier with
    | .shift =>
      match st.lastClickedIndex with
      | some last =>
        let start := Nat.min last index
        let stop := Nat.max last index
        (List.range (stop - start + 1)).map (fun i => start + i)
      | none => [index]
    | .ctrl =>
      if st.selectedIndices.contains index then
        st.selectedIndices.filter (fun i => !(i = index))
      else st.selectedIndices ++ [index]
    | .plain => [index]
  { st with selectedIndices := sel, lastClickedIndex := some index }

/-- createImplicitGroup of the component. -/
def createImplicitGroup (st : GMState) (filterIndex : Nat) (type : Lop)
    (groupId : String) : GMState × List String :=
  if filterIndex + 1 ≥ st.filters.length then
    ({ st with selectedIndices := [filterIndex], lastClickedIndex := some filterIndex }, [])
  else
    createGroupFromSelection
      { st with selectedIndices := [filterIndex, filterIndex + 1] }
      type groupId

end FGM

-- ===========================================================================
-- Definitions written from the specification text (for refinement claims)
-- ===========================================================================

/-- The fold step of specification section 4.2, written from its words over
the FAst encoding, in which Bool(AND, children) is the node with only the
must list and Bool(OR, children) the node with only the should list and
minimum_should_match 1: if the result is a Bool with the same operator,
append the leaf to its children, else wrap both in a new Bool. -/
def specFoldStep (result : FAst) (c : KFU.KFilter) (op : Lop) : FAst :=
  match op, result with
  | .AND, .node (some mu) none none none =>
    FAst.node (some (mu ++ [.filt (some c)])) none none none
  | .OR, .node none (some sh) none (some 1) =>
    FAst.node none (some (sh ++ [.filt (some c)])) none (some 1)
  | .AND, r => FAst.node (some [r, .filt (some c)]) none none none
  | .OR, r => FAst.node none (some [r, .filt (some c)]) none (some 1)

/-- The left to right fold of specification section 4.2. -/
def specFoldLoop (result : FAst) : List KFU.KFilter → List Lop → FAst
  | c :: cs, op :: ops => specFoldLoop (specFoldStep result c op) cs ops
  | _, _ => result

/-- The whole builder of specification section 4.2 over already normalized
clauses and connectors. -/
def specFoldBuild (clauses : List KFU.KFilter) (ops : List Lop) :
    Option FAst :=
  match clauses with
  | [] => none
  | c :: rest => some (specFoldLoop (.filt (some c)) rest ops)

/-- Segment combination as the code actually performs it, written from the
amended wording of claim C5: every join wraps the running result and the
next segment subtree in a fresh two-child Bool node with the given
operator, with no flattening of same-operator runs. -/
def specNestedCombine (result : FAst) : List (Lop × FAst) → FAst
  | [] => result
  | (op, n) :: rest =>
    specNestedCombine
      (match op with
        | .AND => FAst.node (some [result, n]) none none none
        | .OR => FAst.node none (some [result, n]) none (some 1))
      rest

/-- Deleting one index from an index list and closing the gap: the removed
index disappears and every larger index is decremented. -/
def delShift (k : Nat) (l : List Nat) : List Nat :=
  (l.filter (fun i => !(i = k))).map (fun i => if k < i then i - 1 else i)

/-- Well formedness of one explicit group: at least two member indices,
stored in ascending contiguous order. -/
def groupOk (g : FilterGroupDefinition) : Prop :=
  2 ≤ g.filterIndices.length ∧ FGM.chainSucc g.filterIndices = true

/-- Index disjointness of two groups. -/
def disjointG (a b : FilterGroupDefinition) : Prop :=
  ∀ i ∈ a.filterIndices, i ∉ b.filterIndices

/-- The group set invariant of the specification: every group well formed
and the member index sets pairwise disjoint. -/
def groupsInv (gs : List FilterGroupDefinition) : Prop :=
  (∀ g ∈ gs, groupOk g) ∧ gs.Pairwise disjointG


/-- The flat bool node of a uniform connector run: AND gives the must
node, OR the should node with minimum_should_match 1. -/
def uniFNode (X : Lop) (children : List FAst) : FAst :=
  match X with
  | .AND => FAst.node (some children) none none none
  | .OR => FAst.node none (some children) none (some 1)

/-- The flat bool query document of a uniform connector run. -/
def uniBool (X : Lop) (docs : List Q) : Q :=
  match X with
  | .AND => Q.qBool (some docs) none none none
  | .OR => Q.qBool none (some docs) none (some 1)


/-- The leaf node buildGroupNode builds for one member index. -/
def leafAt (fs : List GFilter) (idx : Nat) : FAst :=
  FAst.filt ((fs.get? idx).map (fun f => KFU.toKibanaFilter f.toSimpleFilter))


/-- The group metadata record createGroupFromSelection attaches to the
member at index p of the sorted selection. -/
def tagMeta (gid : String) (ty : Lop) (sorted : List Nat) (p : Nat) :
    GroupMeta :=
  { groupId := gid, groupType := ty,
    isGroupStart := decide (sorted.head? = some p),
    isGroupEnd := decide (sorted.getLast? = some p) }

-- ===========================================================================
-- Helper lemmas
-- ===========================================================================

theorem astToEsList_eq_map (l : List FAst) :
    KFU.astToEsList l = l.map KFU.astToEs := by
  induction l with
  | nil => rfl
  | cons a as ih => simp [KFU.astToEsList, ih]

theorem isEmptyQuery_false_iff (q : Q) :
    (!KFU.isEmptyQuery q) = true ↔ q ≠ Q.matchAll := by
  cases q <;> simp [KFU.isEmptyQuery]

theorem filter_keep_all {l : List Q} (h : ∀ q ∈ l, q ≠ Q.matchAll) :
    l.filter (fun q => !KFU.isEmptyQuery q) = l := by
  rw [List.filter_eq_self]
  intro q hq
  exact (isEmptyQuery_false_iff q).mpr (h q hq)

theorem astToEs_mustNode (l : List FAst) :
    KFU.astToEs (.node (some l) none none none) =
      (match (l.map KFU.astToEs).filter (fun q => !KFU.isEmptyQuery q) with
        | [] => Q.matchAll
        | qs => Q.qBool (some qs) none none none) := by
  rw [KFU.astToEs, astToEsList_eq_map]
  cases (l.map KFU.astToEs).filter (fun q => !KFU.isEmptyQuery q) with
  | nil => rfl
  | cons q qs => rfl

theorem astToEs_shouldNode (l : List FAst) (msm : Option Nat) :
    KFU.astToEs (.node none (some l) none msm) =
      (match (l.map KFU.astToEs).filter (fun q => !KFU.isEmptyQuery q) with
        | [] => Q.matchAll
        | qs => Q.qBool none (some qs) none (some (jsMsmOr1 msm))) := by
  rw [KFU.astToEs, astToEsList_eq_map]
  cases (l.map KFU.astToEs).filter (fun q => !KFU.isEmptyQuery q) with
  | nil => rfl
  | cons q qs => rfl

theorem toQueryDSLListS_eq_map (l : List SAst) :
    FAS.toQueryDSLListS l = l.map FAS.toQueryDSLRecursive := by
  induction l with
  | nil => rfl
  | cons a as ih => simp [FAS.toQueryDSLListS, ih]

-- ===========================================================================
-- Claim theorems
-- ===========================================================================

/-- Claim C1, evaluation of the code at the failing input.  For an is_not
clause the leaf query is already bool must_not of term or match, and the
pipeline then wraps it in a second must_not because toKibanaFilter also
sets meta.negate, so the negation appears twice (which makes the compiled
document semantically positive).  The first conjunct is the text field
case, the second the keyword field case. -/
theorem c1_is_not_double_negation :
    KFU.buildEsQueryFromFilters
      [{ field := "status", operator := "is_not", value := .vstr "deleted" }] =
      ⟨Q.qBool none none (some [Q.qBool none none
        (some [Q.qMatch "status" (JSV.vstr "deleted")]) none]) none⟩ ∧
    KFU.buildEsQueryFromFilters
      [{ field := "verb.keyword", operator := "is_not",
         value := .vstr "GET" }] =
      ⟨Q.qBool none none (some [Q.qBool none none
        (some [Q.qTerm "verb.keyword" (JSV.vstr "GET")]) none]) none⟩ :=
  ⟨rfl, rfl⟩

/-- Claim C3 as amended: astToEsQuery compiles the children of a bool node,
drops the match-all ones, yields match-all when none remain, and otherwise
always keeps the bool wrapper, even around a single surviving child (an
AND node gives bool must, an OR node bool should with minimum_should_match
1); the single-child no-wrapping rule of the claim holds in the separate
FilterAstService.toQueryDSLRecursive, which returns the lone surviving
child document bare. -/
theorem c3_internal_node_compilation :
    (∀ l : List FAst,
      KFU.astToEs (.node (some l) none none none) =
        (match (l.map KFU.astToEs).filter (fun q => !KFU.isEmptyQuery q) with
          | [] => Q.matchAll
          | qs => Q.qBool (some qs) none none none)) ∧
    (∀ (l : List FAst) (msm : Option Nat),
      KFU.astToEs (.node none (some l) none msm) =
        (match (l.map KFU.astToEs).filter (fun q => !KFU.isEmptyQuery q) with
          | [] => Q.matchAll
          | qs => Q.qBool none (some qs) none (some (jsMsmOr1 msm)))) ∧
    (∀ (l : List FAst) (q : Q),
      (l.map KFU.astToEs).filter (fun q => !KFU.isEmptyQuery q) = [q] →
      KFU.astToEs (.node (some l) none none none) =
        Q.qBool (some [q]) none none none) ∧
    (∀ (op : Lop) (ch : List SAst) (q : Q),
      (ch.map FAS.toQueryDSLRecursive).filter
          (fun q => !KFU.isEmptyQuery q) = [q] →
      FAS.toQueryDSLRecursive (.group op ch) = q) ∧
    (∀ (op : Lop) (ch : List SAst),
      (ch.map FAS.toQueryDSLRecursive).filter
          (fun q => !KFU.isEmptyQuery q) = [] →
      FAS.toQueryDSLRecursive (.group op ch) = Q.matchAll) := by
  refine ⟨astToEs_mustNode, astToEs_shouldNode, ?_, ?_, ?_⟩
  · intro l q h
    rw [astToEs_mustNode, h]
  · intro op ch q h
    rw [FAS.toQueryDSLRecursive, toQueryDSLListS_eq_map, h]
  · intro op ch h
    rw [FAS.toQueryDSLRecursive, toQueryDSLListS_eq_map, h]

/-- Claim C3, counterexample to the claim as stated: a two-child AND node
in which one child compiles to match-all (an unknown operator) keeps its
bool must wrapper around the single surviving child instead of returning
that child document bare. -/
theorem c3_counterexample :
    KFU.buildEsQueryFromFilters
      [{ field := "status", operator := "is", value := .vstr "active" },
       { field := "x", operator := "unknown_operator",
         logic := some .AND }] =
      ⟨Q.qBool (some [Q.qMatch "status" (JSV.vstr "active")]) none none
        none⟩ ∧
    Q.qBool (some [Q.qMatch "status" (JSV.vstr "active")]) none none none ≠
      Q.qMatch "status" (JSV.vstr "active") :=
  ⟨rfl, by simp⟩

/-- Shape of the running result of the left associative fold after the
given previous operator: a leaf before the first step, a pure must node
after an AND step, a pure should node with minimum_should_match 1 after an
OR step. -/
def canonicalShape : Option Lop → FAst → Prop
  | none, r => ∃ f, r = FAst.filt f
  | some .AND, r => ∃ mu, r = FAst.node (some mu) none none none
  | some .OR, r => ∃ sh, r = FAst.node none (some sh) none (some 1)

/-- The operatorChanged flag computed by buildASTLeftAssociative. -/
def changedOf (p : Option Lop) (op : Lop) : Bool :=
  match p with
  | some q => decide (q ≠ op)
  | none => false

theorem alaStep_eq_specFoldStep (r : FAst) (c : KFU.KFilter) (op : Lop)
    (p : Option Lop) (h : canonicalShape p r) :
    KFU.alaStep r c op (changedOf p op) = specFoldStep r c op ∧
      canonicalShape (some op) (KFU.alaStep r c op (changedOf p op)) := by
  cases p with
  | none =>
    obtain ⟨f, rfl⟩ := h
    cases op with
    | AND => exact ⟨rfl, ⟨_, rfl⟩⟩
    | OR => exact ⟨rfl, ⟨_, rfl⟩⟩
  | some q =>
    cases q with
    | AND =>
      obtain ⟨mu, rfl⟩ := h
      cases op with
      | AND => exact ⟨rfl, ⟨_, rfl⟩⟩
      | OR => exact ⟨rfl, ⟨_, rfl⟩⟩
    | OR =>
      obtain ⟨sh, rfl⟩ := h
      cases op with
      | AND => exact ⟨rfl, ⟨_, rfl⟩⟩
      | OR => exact ⟨rfl, ⟨_, rfl⟩⟩

theorem alaLoop_eq_specFoldLoop :
    ∀ (rest : List KFU.KFilter) (ops : List Lop) (r : FAst)
      (p : Option Lop), canonicalShape p r →
      KFU.alaLoop r rest ops p = specFoldLoop r rest ops := by
  intro rest
  induction rest with
  | nil => intro ops r p _; cases ops <;> rfl
  | cons c cs ih =>
    intro ops r p h
    cases ops with
    | nil => rfl
    | cons op ops =>
      have hs := alaStep_eq_specFoldStep r c op p h
      have e1 : KFU.alaLoop r (c :: cs) (op :: ops) p =
          KFU.alaLoop (KFU.alaStep r c op (changedOf p op)) cs ops
            (some op) := rfl
      have e2 : specFoldLoop r (c :: cs) (op :: ops) =
          specFoldLoop (specFoldStep r c op) cs ops := rfl
      rw [e1, e2, hs.1]
      exact ih ops _ (some op) (hs.1 ▸ hs.2)

/-- Claim C4: the implicit AST builder is exactly the left to right fold of
the specification (same-connector runs are appended flat into the running
Bool node, a connector change wraps the accumulated result as the left
child of a new Bool node with the new operator), and on the four clause
example A, B(AND), C(OR), D(AND) it yields
Bool(AND, [Bool(OR, [Bool(AND, [A, B]), C]), D]). -/
theorem c4_left_associative_fold :
    (∀ fs : List SimpleFilter, fs ≠ [] →
      (∀ f ∈ fs, f.disabled = false) →
      KFU.buildFilterASTWithOperators fs =
        specFoldBuild (fs.map KFU.toKibanaFilter)
          ((fs.drop 1).map (fun f => jsLogic f.logic))) ∧
    (∀ A B C D : KFU.KFilter,
      KFU.buildASTLeftAssociative [A, B, C, D] [.AND, .OR, .AND] =
        some (.node (some [.node none
          (some [.node (some [.filt (some A), .filt (some B)]) none none
            none, .filt (some C)]) none (some 1), .filt (some D)]) none
          none none)) := by
  constructor
  · intro fs hne hall
    have hfilter : fs.filter (fun f => !f.disabled) = fs := by
      rw [List.filter_eq_self]
      intro f hf
      simp [hall f hf]
    cases fs with
    | nil => exact absurd rfl hne
    | cons a rest =>
      rw [KFU.buildFilterASTWithOperators.eq_def]
      simp only [hfilter]
      cases rest with
      | nil => rfl
      | cons b rest' =>
        rw [KFU.buildASTLeftAssociative.eq_def]
        simp only [List.map_cons, List.drop_succ_cons, List.drop_zero]
        rw [specFoldBuild.eq_def]
        simp only []
        rw [alaLoop_eq_specFoldLoop _ _ _ none ⟨_, rfl⟩]
  · intro A B C D
    rfl

/-- Claim C2 as amended: for the three clause sequence A, B(AND), C(OR)
the compiler of the utils module (buildEsQueryFromFilters, which the
current filter bar component delegates to) emits
bool should [bool must [A, B], C] with minimum_should_match 1 and
buildPreviewString renders (A AND B) OR C; the inline generateQueryDSL
and updatePreview of kibana-filter-bar.component.ts instead group OR runs
and join the groups with AND (see the counterexample). -/
theorem c2_amended (a b c : SimpleFilter)
    (ha : a.disabled = false) (hb : b.disabled = false)
    (hc : c.disabled = false) (hbl : b.logic = some .AND)
    (hcl : c.logic = some .OR) (hda : KFU.leafDoc a ≠ Q.matchAll)
    (hdb : KFU.leafDoc b ≠ Q.matchAll) (hdc : KFU.leafDoc c ≠ Q.matchAll) :
    KFU.buildEsQueryFromFilters [a, b, c] =
      ⟨Q.qBool none (some [Q.qBool (some [KFU.leafDoc a, KFU.leafDoc b])
        none none none, KFU.leafDoc c]) none (some 1)⟩ ∧
    KFU.buildPreviewString [a, b, c] =
      "(" ++ KFU.formatFilterText a ++ " AND " ++ KFU.formatFilterText b ++
        ") OR " ++ KFU.formatFilterText c := by
  have hfilter : [a, b, c].filter (fun f => !f.disabled) = [a, b, c] := by
    simp [ha, hb, hc]
  constructor
  · have hast : KFU.buildFilterASTWithOperators [a, b, c] =
        some (.node none (some
          [.node (some [.filt (some (KFU.toKibanaFilter a)),
            .filt (some (KFU.toKibanaFilter b))]) none none none,
           .filt (some (KFU.toKibanaFilter c))]) none (some 1)) := by
      rw [KFU.buildFilterASTWithOperators.eq_def]
      simp only [hfilter]
      simp only [List.map_cons, List.map_nil, List.drop_succ_cons,
        List.drop_zero, hbl, hcl]
      rfl
    have hinner : KFU.astToEs (.node (some
        [.filt (some (KFU.toKibanaFilter a)),
         .filt (some (KFU.toKibanaFilter b))]) none none none) =
        Q.qBool (some [KFU.leafDoc a, KFU.leafDoc b]) none none none := by
      rw [astToEs_mustNode]
      have hm : ([FAst.filt (some (KFU.toKibanaFilter a)),
          FAst.filt (some (KFU.toKibanaFilter b))].map KFU.astToEs) =
          [KFU.leafDoc a, KFU.leafDoc b] := rfl
      rw [hm, filter_keep_all (by
        intro q hq
        simp only [List.mem_cons, List.not_mem_nil, or_false] at hq
        cases hq with
        | inl h => subst h; exact hda
        | inr h => subst h; exact hdb)]
    have houter : KFU.astToEs (.node none (some
        [.node (some [.filt (some (KFU.toKibanaFilter a)),
          .filt (some (KFU.toKibanaFilter b))]) none none none,
         .filt (some (KFU.toKibanaFilter c))]) none (some 1)) =
        Q.qBool none (some [Q.qBool (some [KFU.leafDoc a, KFU.leafDoc b])
          none none none, KFU.leafDoc c]) none (some 1) := by
      rw [astToEs_shouldNode]
      have hm : ([FAst.node (some [FAst.filt (some (KFU.toKibanaFilter a)),
          FAst.filt (some (KFU.toKibanaFilter b))]) none none none,
          FAst.filt (some (KFU.toKibanaFilter c))].map KFU.astToEs) =
          [Q.qBool (some [KFU.leafDoc a, KFU.leafDoc b]) none none none,
           KFU.leafDoc c] := by
        simp only [List.map_cons, List.map_nil, hinner]
        rfl
      rw [hm, filter_keep_all (by
        intro q hq
        simp only [List.mem_cons, List.not_mem_nil, or_false] at hq
        cases hq with
        | inl h => subst h; intro hcon; cases hcon
        | inr h => subst h; exact hdc)]
      rfl
    rw [KFU.buildEsQueryFromFilters.eq_def]
    simp only [hast]
    rw [houter]
  · rw [KFU.buildPreviewString.eq_def]
    simp only [hfilter]
    simp only [List.map_cons, List.map_nil, hbl, hcl]
    show KFU.buildPreviewWithGrouping
      [(KFU.formatFilterText a, none),
       (KFU.formatFilterText b, some (jsLogic (some Lop.AND))),
       (KFU.formatFilterText c, some (jsLogic (some Lop.OR)))] = _
    rw [KFU.buildPreviewWithGrouping.eq_def]
    simp only [jsLogic, List.map_cons, List.map_nil, List.all_cons,
      List.all_nil]
    show KFU.previewLoop (KFU.formatFilterText a)
      [KFU.formatFilterText b, KFU.formatFilterText c] [.AND, .OR] none = _
    have hd : ∀ x y : String, (x ++ y).data = x.data ++ y.data :=
      fun _ _ => rfl
    apply String.ext
    simp [KFU.previewLoop, Lop.str, hd, List.append_assoc]

/-- Claim C2, counterexample to the claim as stated over its cited code:
on A, B(AND), C(OR) the inline generateQueryDSL emits
bool must [A, bool should [B, C]] rather than the claimed
bool should [bool must [A, B], C], and the inline updatePreview renders
the string with the parentheses around B OR C instead of A AND B. -/
theorem c2_counterexample :
    KFB.generateQueryDSL
      [{ field := "status", operator := "is", value := .vstr "active" },
       { field := "type", operator := "is", value := .vstr "user",
         logic := some .AND },
       { field := "type", operator := "is", value := .vstr "admin",
         logic := some .OR }] =
      ⟨Q.qBool (some [Q.qMatch "status" (JSV.vstr "active"),
        Q.qBool none (some [Q.qMatch "type" (JSV.vstr "user"),
          Q.qMatch "type" (JSV.vstr "admin")]) none (some 1)])
        none none none⟩ ∧
    Q.qBool (some [Q.qMatch "status" (JSV.vstr "active"),
        Q.qBool none (some [Q.qMatch "type" (JSV.vstr "user"),
          Q.qMatch "type" (JSV.vstr "admin")]) none (some 1)])
        none none none ≠
      Q.qBool none (some [Q.qBool (some [Q.qMatch "status" (JSV.vstr "active"),
        Q.qMatch "type" (JSV.vstr "user")]) none none none,
        Q.qMatch "type" (JSV.vstr "admin")]) none (some 1) ∧
    KFB.updatePreviewText
      [{ field := "status", operator := "is", value := .vstr "active" },
       { field := "type", operator := "is", value := .vstr "user",
         logic := some .AND },
       { field := "type", operator := "is", value := .vstr "admin",
         logic := some .OR }] =
      "status: active  AND ( type: user  OR type: admin )" ∧
    "status: active  AND ( type: user  OR type: admin )" ≠
      "(status: active AND type: user) OR type: admin" :=
  ⟨rfl, by simp, rfl, by decide⟩

/-- Claim C2 witness: the amended theorem applied to the concrete clause
sequence of the specification scenario. -/
theorem c2_witness :
    KFU.buildEsQueryFromFilters
      [{ field := "status", operator := "is", value := .vstr "active" },
       { field := "type", operator := "is", value := .vstr "user", logic := some .AND },
       { field := "type", operator := "is", value := .vstr "admin", logic := some .OR }] =
      ⟨Q.qBool none (some [Q.qBool
        (some [KFU.leafDoc { field := "status", operator := "is", value := .vstr "active" },
          KFU.leafDoc { field := "type", operator := "is", value := .vstr "user", logic := some .AND }]) none none none,
        KFU.leafDoc { field := "type", operator := "is", value := .vstr "admin", logic := some .OR }]) none (some 1)⟩ ∧
    KFU.buildPreviewString
      [{ field := "status", operator := "is", value := .vstr "active" },
       { field := "type", operator := "is", value := .vstr "user", logic := some .AND },
       { field := "type", operator := "is", value := .vstr "admin", logic := some .OR }] =
      "(" ++ KFU.formatFilterText { field := "status", operator := "is", value := .vstr "active" } ++ " AND " ++
        KFU.formatFilterText { field := "type", operator := "is", value := .vstr "user", logic := some .AND } ++ ") OR " ++
        KFU.formatFilterText { field := "type", operator := "is", value := .vstr "admin", logic := some .OR } :=
  c2_amended _ _ _ rfl rfl rfl rfl rfl
    (fun h => Q.noConfusion h) (fun h => Q.noConfusion h)
    (fun h => Q.noConfusion h)

theorem alaLoop_replicate_and (rest : List KFU.KFilter) :
    ∀ mu : List FAst,
      KFU.alaLoop (.node (some mu) none none none) rest
        (List.replicate rest.length .AND) (some .AND) =
      .node (some (mu ++ rest.map (fun k => FAst.filt (some k)))) none none
        none := by
  induction rest with
  | nil => intro mu; simp [KFU.alaLoop]
  | cons k ks ih =>
    intro mu
    have e1 : KFU.alaLoop (.node (some mu) none none none) (k :: ks)
        (List.replicate (k :: ks).length .AND) (some .AND) =
        KFU.alaLoop (.node (some (mu ++ [.filt (some k)])) none none none)
          ks (List.replicate ks.length .AND) (some .AND) := rfl
    rw [e1, ih]
    simp

theorem alaLoop_replicate_or (rest : List KFU.KFilter) :
    ∀ sh : List FAst,
      KFU.alaLoop (.node none (some sh) none (some 1)) rest
        (List.replicate rest.length .OR) (some .OR) =
      .node none (some (sh ++ rest.map (fun k => FAst.filt (some k)))) none
        (some 1) := by
  induction rest with
  | nil => intro sh; simp [KFU.alaLoop]
  | cons k ks ih =>
    intro sh
    have e1 : KFU.alaLoop (.node none (some sh) none (some 1)) (k :: ks)
        (List.replicate (k :: ks).length .OR) (some .OR) =
        KFU.alaLoop (.node none (some (sh ++ [.filt (some k)])) none
          (some 1)) ks (List.replicate ks.length .OR) (some .OR) := rfl
    rw [e1, ih]
    simp

theorem buildALA_uniform (X : Lop) (k0 k1 : KFU.KFilter)
    (ks : List KFU.KFilter) :
    KFU.buildASTLeftAssociative (k0 :: k1 :: ks)
      (List.replicate (k1 :: ks).length X) =
      some (uniFNode X ((k0 :: k1 :: ks).map (fun k => FAst.filt (some k)))) := by
  cases X with
  | AND =>
    have e1 : KFU.buildASTLeftAssociative (k0 :: k1 :: ks)
        (List.replicate (k1 :: ks).length .AND) =
        some (KFU.alaLoop
          (.node (some [.filt (some k0), .filt (some k1)]) none none none)
          ks (List.replicate ks.length .AND) (some .AND)) := rfl
    rw [e1, alaLoop_replicate_and]
    simp [uniFNode]
  | OR =>
    have e1 : KFU.buildASTLeftAssociative (k0 :: k1 :: ks)
        (List.replicate (k1 :: ks).length .OR) =
        some (KFU.alaLoop
          (.node none (some [.filt (some k0), .filt (some k1)]) none
            (some 1)) ks (List.replicate ks.length .OR) (some .OR)) := rfl
    rw [e1, alaLoop_replicate_or]
    simp [uniFNode]

theorem jsJoin_shift (ts : List String) :
    ∀ t0 X : String,
      jsJoin " " (t0 :: ts.map (fun t => X ++ " " ++ t)) =
        jsJoin (" " ++ X ++ " ") (t0 :: ts) := by
  induction ts with
  | nil => intro t0 X; rfl
  | cons t ts2 ih =>
    intro t0 X
    have hd : ∀ x y : String, (x ++ y).data = x.data ++ y.data :=
      fun _ _ => rfl
    cases ts2 with
    | nil =>
      show t0 ++ " " ++ (X ++ " " ++ t) = t0 ++ (" " ++ X ++ " ") ++ t
      apply String.ext
      simp [hd, List.append_assoc]
    | cons u us =>
      have l1 : jsJoin " " (t0 :: (t :: u :: us).map
          (fun t => X ++ " " ++ t)) =
          t0 ++ " " ++ jsJoin " " ((X ++ " " ++ t) :: (u :: us).map
            (fun t => X ++ " " ++ t)) := rfl
      have l2 : jsJoin (" " ++ X ++ " ") (t0 :: t :: u :: us) =
          t0 ++ (" " ++ X ++ " ") ++ jsJoin (" " ++ X ++ " ")
            (t :: u :: us) := rfl
      rw [l1, l2, ih (X ++ " " ++ t) X]
      have l3 : jsJoin (" " ++ X ++ " ") ((X ++ " " ++ t) :: u :: us) =
          (X ++ " " ++ t) ++ (" " ++ X ++ " ") ++ jsJoin (" " ++ X ++ " ")
            (u :: us) := rfl
      have l4 : jsJoin (" " ++ X ++ " ") (t :: u :: us) =
          t ++ (" " ++ X ++ " ") ++ jsJoin (" " ++ X ++ " ")
            (u :: us) := rfl
      rw [l3, l4]
      apply String.ext
      simp [hd, List.append_assoc]

theorem buildPreviewWithGrouping_allSame (e0 : String × Option Lop)
    (e1 : String × Option Lop) (es : List (String × Option Lop)) (X : Lop)
    (h : ∀ p ∈ e1 :: es, jsLogic p.2 = X) :
    KFU.buildPreviewWithGrouping (e0 :: e1 :: es) =
      jsJoin " " (e0.1 :: (e1 :: es).map
        (fun p => X.str ++ " " ++ p.1)) := by
  have hmapop : (e1 :: es).map (fun p => jsLogic p.2) =
      List.replicate (e1 :: es).length X := by
    rw [List.eq_replicate_iff]
    refine ⟨by simp, ?_⟩
    intro b hb
    simp only [List.mem_map] at hb
    obtain ⟨p, hp, rfl⟩ := hb
    exact h p hp
  have e0eq : KFU.buildPreviewWithGrouping (e0 :: e1 :: es) =
      (let operators := (e1 :: es).map (fun p => jsLogic p.2)
       let allSame := match operators with
         | [] => true
         | o :: os => os.all (fun x => x = o)
       if allSame then
         jsJoin " " (e0.1 :: (e1 :: es).map
           (fun p => (jsLogic p.2).str ++ " " ++ p.1))
       else KFU.previewLoop e0.1 ((e1 :: es).map (fun p => p.1)) operators
         none) := rfl
  rw [e0eq]
  simp only [hmapop]
  have hsame : (match List.replicate (e1 :: es).length X with
      | [] => true
      | o :: os => os.all (fun x => x = o)) = true := by
    simp only [List.length_cons, List.replicate_succ]
    simp [List.all_eq_true, List.eq_of_mem_replicate]
  rw [hsame]
  simp only [if_true]
  have : (e1 :: es).map (fun p => (jsLogic p.2).str ++ " " ++ p.1) =
      (e1 :: es).map (fun p => X.str ++ " " ++ p.1) := by
    apply List.map_congr_left
    intro p hp
    rw [h p hp]
  rw [this]

/-- Claim C8 as amended: for every clause sequence of length at least two
whose connectors are all the same operator X, buildPreviewString renders
c1 X c2 X ... X cn joined with single spaces and no added parentheses,
and buildEsQueryFromFilters emits bool must of the leaf documents for
X = AND and bool should with minimum_should_match 1 for X = OR; the
inline updatePreview of kibana-filter-bar.component.ts instead wraps a
uniform OR sequence in parentheses (see the counterexample). -/
theorem c8_amended (X : Lop) (f0 f1 : SimpleFilter)
    (rest : List SimpleFilter)
    (hall : ∀ f ∈ f0 :: f1 :: rest, f.disabled = false)
    (hlog : ∀ f ∈ f1 :: rest, f.logic = some X)
    (hdocs : ∀ f ∈ f0 :: f1 :: rest, KFU.leafDoc f ≠ Q.matchAll) :
    KFU.buildPreviewString (f0 :: f1 :: rest) =
      jsJoin (" " ++ X.str ++ " ")
        ((f0 :: f1 :: rest).map KFU.formatFilterText) ∧
    (KFU.buildEsQueryFromFilters (f0 :: f1 :: rest)).query =
      uniBool X ((f0 :: f1 :: rest).map KFU.leafDoc) := by
  have hfilter : (f0 :: f1 :: rest).filter (fun f => !f.disabled) =
      f0 :: f1 :: rest := by
    rw [List.filter_eq_self]
    intro f hf
    simp [hall f hf]
  constructor
  · rw [KFU.buildPreviewString.eq_def]
    simp only [hfilter]
    show KFU.buildPreviewWithGrouping
      ((KFU.formatFilterText f0, none) :: (KFU.formatFilterText f1,
        some (jsLogic f1.logic)) :: rest.map
        (fun f => (KFU.formatFilterText f, some (jsLogic f.logic)))) = _
    rw [buildPreviewWithGrouping_allSame _ _ _ X (by
      intro p hp
      simp only [List.mem_cons, List.mem_map] at hp
      rcases hp with rfl | ⟨f, hf, rfl⟩
      · show jsLogic (some (jsLogic f1.logic)) = X
        rw [hlog f1 (List.mem_cons_self f1 rest)]
        rfl
      · show jsLogic (some (jsLogic f.logic)) = X
        rw [hlog f (List.mem_cons_of_mem _ hf)]
        rfl)]
    have hlist : ((KFU.formatFilterText f1, some (jsLogic f1.logic)) ::
        rest.map (fun f => (KFU.formatFilterText f,
          some (jsLogic f.logic)))).map (fun p => X.str ++ " " ++ p.1) =
        ((f1 :: rest).map KFU.formatFilterText).map
          (fun t => X.str ++ " " ++ t) := by
      simp [List.map_map]
    rw [hlist]
    rw [List.map_cons KFU.formatFilterText f0 (f1 :: rest)]
    exact jsJoin_shift _ _ _
  · have hops : (f1 :: rest).map (fun f => jsLogic f.logic) =
        List.replicate (f1 :: rest).length X := by
      rw [List.eq_replicate_iff]
      refine ⟨by simp, ?_⟩
      intro b hb
      simp only [List.mem_map] at hb
      obtain ⟨f, hf, rfl⟩ := hb
      rw [hlog f hf]
      rfl
    have hast : KFU.buildFilterASTWithOperators (f0 :: f1 :: rest) =
        some (uniFNode X ((f0 :: f1 :: rest).map
          (fun f => FAst.filt (some (KFU.toKibanaFilter f))))) := by
      rw [KFU.buildFilterASTWithOperators.eq_def]
      simp only [hfilter]
      show KFU.buildASTLeftAssociative
        ((f0 :: f1 :: rest).map KFU.toKibanaFilter)
        ((f1 :: rest).map (fun f => jsLogic f.logic)) = _
      rw [hops]
      have hlen : (f1 :: rest).length =
          ((KFU.toKibanaFilter f1) :: rest.map KFU.toKibanaFilter).length :=
        by simp
      rw [List.map_cons, List.map_cons, hlen, buildALA_uniform]
      simp only [List.map_cons, List.map_map]
      rfl
    rw [KFU.buildEsQueryFromFilters.eq_def]
    simp only [hast]
    have hkeep : ((f0 :: f1 :: rest).map
        (fun f => FAst.filt (some (KFU.toKibanaFilter f)))).map
          KFU.astToEs = (f0 :: f1 :: rest).map KFU.leafDoc := by
      simp only [List.map_map]
      rfl
    have hfk : ∀ l, l = (f0 :: f1 :: rest).map KFU.leafDoc →
        l.filter (fun q => !KFU.isEmptyQuery q) = l := by
      intro l hl
      subst hl
      apply filter_keep_all
      intro q hq
      simp only [List.mem_map] at hq
      obtain ⟨f, hf, rfl⟩ := hq
      exact hdocs f hf
    cases X with
    | AND =>
      show KFU.astToEs (FAst.node (some ((f0 :: f1 :: rest).map
        (fun f => FAst.filt (some (KFU.toKibanaFilter f))))) none none
        none) = _
      rw [astToEs_mustNode, hkeep, hfk _ rfl]
      rfl
    | OR =>
      show KFU.astToEs (FAst.node none (some ((f0 :: f1 :: rest).map
        (fun f => FAst.filt (some (KFU.toKibanaFilter f))))) none
        (some 1)) = _
      rw [astToEs_shouldNode, hkeep, hfk _ rfl]
      rfl

/-- Claim C8, counterexample to the claim as stated over its cited code:
the inline updatePreview renders the uniform OR sequence a: x OR b: y
wrapped in a pair of parentheses (and with doubled spaces), not as the
claimed parenthesis-free c1 OR c2. -/
theorem c8_counterexample :
    KFB.updatePreviewText
      [{ field := "a", operator := "is", value := .vstr "x" },
       { field := "b", operator := "is", value := .vstr "y", logic := some .OR }] =
      "( a: x  OR b: y )" ∧
    "( a: x  OR b: y )" ≠ "a: x OR b: y" ∧
    '(' ∈ "( a: x  OR b: y )".data :=
  ⟨rfl, by decide, by decide⟩

/-- Claim C8 witness: the amended theorem applied to a concrete uniform
OR sequence of two clauses. -/
theorem c8_witness :
    KFU.buildPreviewString
      [{ field := "status", operator := "is", value := .vstr "active" },
       { field := "status", operator := "is", value := .vstr "pending", logic := some .OR }] =
      jsJoin (" " ++ Lop.str .OR ++ " ")
        ([{ field := "status", operator := "is", value := .vstr "active" },
          { field := "status", operator := "is", value := .vstr "pending", logic := some .OR }].map
          KFU.formatFilterText) ∧
    (KFU.buildEsQueryFromFilters
      [{ field := "status", operator := "is", value := .vstr "active" },
       { field := "status", operator := "is", value := .vstr "pending", logic := some .OR }]).query =
      uniBool .OR
        ([{ field := "status", operator := "is", value := .vstr "active" },
          { field := "status", operator := "is", value := .vstr "pending", logic := some .OR }].map
          KFU.leafDoc) :=
  c8_amended .OR _ _ []
    (by
      intro f hf
      simp only [List.mem_cons, List.not_mem_nil, or_false] at hf
      rcases hf with rfl | rfl <;> rfl)
    (by
      intro f hf
      simp only [List.mem_cons, List.not_mem_nil, or_false] at hf
      subst hf
      rfl)
    (by
      intro f hf
      simp only [List.mem_cons, List.not_mem_nil, or_false] at hf
      rcases hf with rfl | rfl <;> exact fun h => Q.noConfusion h)

theorem bsfq_range_eq (f : String) (minV maxV : JSV) (mo Mo : Option String) :
    KFU.buildSingleFilterQuery { field := f, operator := "range", minValue := minV, maxValue := maxV, minOperator := mo, maxOperator := Mo } =
      (let rq : List (String × JSV) := []
       let rq := if jsTruthy minV then
           objAssign rq (jsStrOr mo "gt")
             (KFU.convertValue (jsEndsWith f ".keyword") minV)
         else rq
       let rq := if jsTruthy maxV then
           objAssign rq (jsStrOr Mo "lt")
             (KFU.convertValue (jsEndsWith f ".keyword") maxV)
         else rq
       if rq.length > 0 then some (Q.qRange f rq) else none) := rfl

theorem c10_part_b (f : String) (minV maxV : JSV) (mo Mo : Option String)
    (hmin : jsTruthy minV = false) (hmax : jsTruthy maxV = false) :
    KFU.buildSingleFilterQuery { field := f, operator := "range", minValue := minV, maxValue := maxV, minOperator := mo, maxOperator := Mo } = none := by
  rw [bsfq_range_eq]
  simp [hmin, hmax]

theorem c10_part_c (f : String) (minV maxV : JSV) (mo Mo : Option String)
    (hmin : jsTruthy minV = true) (hmax : jsTruthy maxV = false) :
    KFU.buildSingleFilterQuery { field := f, operator := "range", minValue := minV, maxValue := maxV, minOperator := mo, maxOperator := Mo } =
      some (Q.qRange f [(jsStrOr mo "gt",
        KFU.convertValue (jsEndsWith f ".keyword") minV)]) := by
  rw [bsfq_range_eq]
  simp [hmin, hmax, objAssign]

theorem c10_part_d (f : String) (minV maxV : JSV) (mo Mo : Option String)
    (hmin : jsTruthy minV = false) (hmax : jsTruthy maxV = true) :
    KFU.buildSingleFilterQuery { field := f, operator := "range", minValue := minV, maxValue := maxV, minOperator := mo, maxOperator := Mo } =
      some (Q.qRange f [(jsStrOr Mo "lt",
        KFU.convertValue (jsEndsWith f ".keyword") maxV)]) := by
  rw [bsfq_range_eq]
  simp [hmin, hmax, objAssign]

theorem c10_part_e (f : String) (minV maxV : JSV) (mo Mo : Option String)
    (hmin : jsTruthy minV = true) (hmax : jsTruthy maxV = true)
    (hk : jsStrOr mo "gt" ≠ jsStrOr Mo "lt") :
    KFU.buildSingleFilterQuery { field := f, operator := "range", minValue := minV, maxValue := maxV, minOperator := mo, maxOperator := Mo } =
      some (Q.qRange f
        [(jsStrOr mo "gt", KFU.convertValue (jsEndsWith f ".keyword") minV),
         (jsStrOr Mo "lt", KFU.convertValue (jsEndsWith f ".keyword") maxV)]) := by
  rw [bsfq_range_eq]
  simp [hmin, hmax, objAssign, hk]

theorem astToEs_filt (k : KFU.KFilter) :
    KFU.astToEs (.filt (some k)) =
      (let query := match k.query with
        | some q => q
        | none => Q.matchAll
       if k.negate then Q.qBool none none (some [query]) none else query) :=
  rfl

theorem c10_omit_zero_min (f : String) (maxV : JSV) (mo Mo : Option String) :
    KFU.buildSingleFilterQuery { field := f, operator := "range", minValue := JSV.vnum 0 0, maxValue := maxV, minOperator := mo, maxOperator := Mo } =
      KFU.buildSingleFilterQuery { field := f, operator := "range", minValue := JSV.vundef, maxValue := maxV, minOperator := mo, maxOperator := Mo } := by
  rw [bsfq_range_eq, bsfq_range_eq]
  simp [jsTruthy]

theorem c10_exclusion (g : SimpleFilter) (f : String) (minV maxV : JSV)
    (mo Mo : Option String) (hmin : jsTruthy minV = false)
    (hmax : jsTruthy maxV = false) (hg : g.disabled = false)
    (hgl : g.logic = some .AND) (hgd : KFU.leafDoc g ≠ Q.matchAll) :
    KFU.buildEsQueryFromFilters
      [{ field := f, operator := "range", minValue := minV, maxValue := maxV, minOperator := mo, maxOperator := Mo }, g] =
      ⟨Q.qBool (some [KFU.leafDoc g]) none none none⟩ := by
  set r : SimpleFilter := { field := f, operator := "range", minValue := minV, maxValue := maxV, minOperator := mo, maxOperator := Mo } with hr
  have hrd : KFU.leafDoc r = Q.matchAll := by
    have hq : (KFU.toKibanaFilter r).query = none := c10_part_b f minV maxV mo Mo hmin hmax
    show KFU.astToEs (.filt (some (KFU.toKibanaFilter r))) = Q.matchAll
    rw [astToEs_filt, hq]
    rfl
  have hfilter : [r, g].filter (fun x => !x.disabled) = [r, g] := by
    simp [hr, hg]
  have hast : KFU.buildFilterASTWithOperators [r, g] =
      some (.node (some [.filt (some (KFU.toKibanaFilter r)),
        .filt (some (KFU.toKibanaFilter g))]) none none none) := by
    rw [KFU.buildFilterASTWithOperators.eq_def]
    simp only [hfilter]
    simp only [List.map_cons, List.map_nil, List.drop_succ_cons,
      List.drop_zero, hgl]
    rfl
  rw [KFU.buildEsQueryFromFilters.eq_def]
  simp only [hast]
  rw [astToEs_mustNode]
  have hm : ([FAst.filt (some (KFU.toKibanaFilter r)),
      FAst.filt (some (KFU.toKibanaFilter g))].map KFU.astToEs) =
      [Q.matchAll, KFU.leafDoc g] := by
    simp only [List.map_cons, List.map_nil]
    rw [show KFU.astToEs (FAst.filt (some (KFU.toKibanaFilter r))) = KFU.leafDoc r from rfl, hrd]
    rfl
  rw [hm]
  have hfl : ([Q.matchAll, KFU.leafDoc g]).filter
      (fun q => !KFU.isEmptyQuery q) = [KFU.leafDoc g] := by
    have h1 : (!KFU.isEmptyQuery Q.matchAll) = false := rfl
    have h2 : (!KFU.isEmptyQuery (KFU.leafDoc g)) = true :=
      (isEmptyQuery_false_iff (KFU.leafDoc g)).mpr hgd
    simp [List.filter, h1, h2]
  rw [hfl]

/-- Claim C10: a range bound side is included exactly when its value is
truthy, so a supplied bound of 0 or of the empty string is omitted exactly
as if it were absent; a remaining bound uses the supplied operator name or
the defaults gt and lt; a range clause with two falsy bounds compiles to
null; and such a clause is absent from the end to end pipeline output. -/
theorem c10_claim :
    (∀ (f : String) (maxV : JSV) (mo Mo : Option String),
      KFU.buildSingleFilterQuery { field := f, operator := "range", minValue := JSV.vnum 0 0, maxValue := maxV, minOperator := mo, maxOperator := Mo } =
        KFU.buildSingleFilterQuery { field := f, operator := "range", minValue := JSV.vundef, maxValue := maxV, minOperator := mo, maxOperator := Mo } ∧
      KFU.buildSingleFilterQuery { field := f, operator := "range", minValue := JSV.vstr "", maxValue := maxV, minOperator := mo, maxOperator := Mo } =
        KFU.buildSingleFilterQuery { field := f, operator := "range", minValue := JSV.vundef, maxValue := maxV, minOperator := mo, maxOperator := Mo }) ∧
    (∀ (f : String) (minV : JSV) (mo Mo : Option String),
      KFU.buildSingleFilterQuery { field := f, operator := "range", minValue := minV, maxValue := JSV.vnum 0 0, minOperator := mo, maxOperator := Mo } =
        KFU.buildSingleFilterQuery { field := f, operator := "range", minValue := minV, maxValue := JSV.vundef, minOperator := mo, maxOperator := Mo } ∧
      KFU.buildSingleFilterQuery { field := f, operator := "range", minValue := minV, maxValue := JSV.vstr "", minOperator := mo, maxOperator := Mo } =
        KFU.buildSingleFilterQuery { field := f, operator := "range", minValue := minV, maxValue := JSV.vundef, minOperator := mo, maxOperator := Mo }) ∧
    (∀ (f : String) (minV maxV : JSV) (mo Mo : Option String),
      jsTruthy minV = false → jsTruthy maxV = false →
      KFU.buildSingleFilterQuery { field := f, operator := "range", minValue := minV, maxValue := maxV, minOperator := mo, maxOperator := Mo } = none) ∧
    (∀ (f : String) (minV maxV : JSV) (mo Mo : Option String),
      jsTruthy minV = true → jsTruthy maxV = false →
      KFU.buildSingleFilterQuery { field := f, operator := "range", minValue := minV, maxValue := maxV, minOperator := mo, maxOperator := Mo } =
        some (Q.qRange f [(jsStrOr mo "gt",
          KFU.convertValue (jsEndsWith f ".keyword") minV)])) ∧
    (∀ (f : String) (minV maxV : JSV) (mo Mo : Option String),
      jsTruthy minV = false → jsTruthy maxV = true →
      KFU.buildSingleFilterQuery { field := f, operator := "range", minValue := minV, maxValue := maxV, minOperator := mo, maxOperator := Mo } =
        some (Q.qRange f [(jsStrOr Mo "lt",
          KFU.convertValue (jsEndsWith f ".keyword") maxV)])) ∧
    (∀ (f : String) (minV maxV : JSV) (mo Mo : Option String),
      jsTruthy minV = true → jsTruthy maxV = true →
      jsStrOr mo "gt" ≠ jsStrOr Mo "lt" →
      KFU.buildSingleFilterQuery { field := f, operator := "range", minValue := minV, maxValue := maxV, minOperator := mo, maxOperator := Mo } =
        some (Q.qRange f
          [(jsStrOr mo "gt", KFU.convertValue (jsEndsWith f ".keyword") minV),
           (jsStrOr Mo "lt", KFU.convertValue (jsEndsWith f ".keyword") maxV)])) ∧
    (∀ (g : SimpleFilter) (f : String) (minV maxV : JSV)
      (mo Mo : Option String),
      jsTruthy minV = false → jsTruthy maxV = false → g.disabled = false →
      g.logic = some .AND → KFU.leafDoc g ≠ Q.matchAll →
      KFU.buildEsQueryFromFilters
        [{ field := f, operator := "range", minValue := minV, maxValue := maxV, minOperator := mo, maxOperator := Mo }, g] =
        ⟨Q.qBool (some [KFU.leafDoc g]) none none none⟩) := by
  refine ⟨?_, ?_, c10_part_b, c10_part_c, c10_part_d, c10_part_e,
    c10_exclusion⟩
  · intro f maxV mo Mo
    constructor
    · exact c10_omit_zero_min f maxV mo Mo
    · rw [bsfq_range_eq, bsfq_range_eq]
      simp [jsTruthy]
  · intro f minV mo Mo
    constructor
    · rw [bsfq_range_eq, bsfq_range_eq]
      simp [jsTruthy]
    · rw [bsfq_range_eq, bsfq_range_eq]
      simp [jsTruthy]

/-- Claim C10 witness: concrete range clauses with a zero lower bound, with
both bounds falsy, and the pipeline exclusion next to an ordinary clause. -/
theorem c10_witness :
    KFU.buildSingleFilterQuery { field := "bytes", operator := "range", minValue := JSV.vnum 0 0, maxValue := JSV.vstr "100" } =
      some (Q.qRange "bytes" [("lt", JSV.vnum 100 0)]) ∧
    KFU.buildSingleFilterQuery { field := "bytes", operator := "range", minValue := JSV.vstr "", maxValue := JSV.vundef } = none ∧
    KFU.buildEsQueryFromFilters
      [{ field := "bytes", operator := "range" },
       { field := "status", operator := "is", value := .vstr "active", logic := some .AND }] =
      ⟨Q.qBool (some [KFU.leafDoc { field := "status", operator := "is", value := .vstr "active", logic := some .AND }]) none none none⟩ := by
  refine ⟨?_, ?_, ?_⟩
  · have h := c10_claim.2.2.2.2.1 "bytes" (JSV.vnum 0 0) (JSV.vstr "100")
      none none rfl (by decide)
    rw [h]
    rfl
  · exact c10_claim.2.2.1 "bytes" (JSV.vstr "") JSV.vundef none none rfl rfl
  · exact c10_claim.2.2.2.2.2.2 _ "bytes" JSV.vundef JSV.vundef none none
      rfl rfl rfl rfl (fun h => Q.noConfusion h)

/-- Claim C3 witness: the single-survivor conjuncts applied to concrete
nodes, showing the kept wrapper in astToEsQuery and the bare child in the
service. -/
theorem c3_witness :
    KFU.astToEs (.node (some [.filt (some (KFU.toKibanaFilter
      { field := "status", operator := "is", value := .vstr "active" })),
      .filt none]) none none none) =
      Q.qBool (some [Q.qMatch "status" (JSV.vstr "active")]) none none
        none ∧
    FAS.toQueryDSLRecursive (.group .AND
      [.clause { id := "1", field := "status", operator := "is", value := .vstr "active" },
       .clause { id := "2", field := "", operator := "is" }]) =
      Q.qMatch "status" (JSV.vstr "active") :=
  ⟨c3_internal_node_compilation.2.2.1 _ _ rfl,
   c3_internal_node_compilation.2.2.2.1 .AND _ _ rfl⟩

/-- Claim C4 witness: the refinement applied to a concrete two clause
sequence. -/
theorem c4_witness :
    KFU.buildFilterASTWithOperators
      [{ field := "a", operator := "is", value := .vstr "x" },
       { field := "b", operator := "is", value := .vstr "y", logic := some .OR }] =
      specFoldBuild
        ([{ field := "a", operator := "is", value := .vstr "x" },
          { field := "b", operator := "is", value := .vstr "y", logic := some .OR }].map
          KFU.toKibanaFilter)
        (([{ field := "a", operator := "is", value := .vstr "x" },
           ({ field := "b", operator := "is", value := .vstr "y", logic := some .OR } : SimpleFilter)].drop 1).map
          (fun f => jsLogic f.logic)) :=
  c4_left_associative_fold.1 _ (by simp)
    (by
      intro f hf
      simp only [List.mem_cons, List.not_mem_nil, or_false] at hf
      rcases hf with rfl | rfl <;> rfl)

theorem combineSegs_eq_nested (fs : List GFilter) :
    ∀ (segs : List KFU.Seg) (res : FAst),
      KFU.combineSegs fs res segs =
        specNestedCombine res (segs.map
          (fun s => (KFU.segFirstOp fs s, KFU.segToNode fs s))) := by
  intro segs
  induction segs with
  | nil => intro res; rfl
  | cons seg rest ih =>
    intro res
    cases hop : KFU.segFirstOp fs seg with
    | AND =>
      have e1 : KFU.combineSegs fs res (seg :: rest) =
          KFU.combineSegs fs
            (match KFU.segFirstOp fs seg with
              | .OR => FAst.node none (some [res, KFU.segToNode fs seg])
                  none (some 1)
              | .AND => FAst.node (some [res, KFU.segToNode fs seg]) none
                  none none) rest := rfl
      rw [e1, hop]
      rw [ih]
      have e2 : specNestedCombine res ((seg :: rest).map
          (fun s => (KFU.segFirstOp fs s, KFU.segToNode fs s))) =
          specNestedCombine
            (match KFU.segFirstOp fs seg with
              | .AND => FAst.node (some [res, KFU.segToNode fs seg]) none
                  none none
              | .OR => FAst.node none (some [res, KFU.segToNode fs seg])
                  none (some 1))
            (rest.map (fun s => (KFU.segFirstOp fs s, KFU.segToNode fs s))) :=
        rfl
      rw [e2, hop]
    | OR =>
      have e1 : KFU.combineSegs fs res (seg :: rest) =
          KFU.combineSegs fs
            (match KFU.segFirstOp fs seg with
              | .OR => FAst.node none (some [res, KFU.segToNode fs seg])
                  none (some 1)
              | .AND => FAst.node (some [res, KFU.segToNode fs seg]) none
                  none none) rest := rfl
      rw [e1, hop]
      rw [ih]
      have e2 : specNestedCombine res ((seg :: rest).map
          (fun s => (KFU.segFirstOp fs s, KFU.segToNode fs s))) =
          specNestedCombine
            (match KFU.segFirstOp fs seg with
              | .AND => FAst.node (some [res, KFU.segToNode fs seg]) none
                  none none
              | .OR => FAst.node none (some [res, KFU.segToNode fs seg])
                  none (some 1))
            (rest.map (fun s => (KFU.segFirstOp fs s, KFU.segToNode fs s))) :=
        rfl
      rw [e2, hop]

theorem buildGroupNode_single (fs : List GFilter)
    (g : FilterGroupDefinition) (i : Nat) (f : GFilter)
    (hfi : g.filterIndices.filter (fun idx => idx < fs.length) = [i])
    (hget : fs.get? i = some f) :
    KFU.buildGroupNode fs g =
      .filt (some (KFU.toKibanaFilter f.toSimpleFilter)) := by
  rw [KFU.buildGroupNode.eq_def]
  simp only [hfi, List.map_cons, List.map_nil, hget]
  rfl

theorem buildGroupNode_multi (fs : List GFilter)
    (g : FilterGroupDefinition) (i j : Nat) (l : List Nat)
    (hfi : g.filterIndices.filter (fun idx => idx < fs.length) =
      i :: j :: l) :
    KFU.buildGroupNode fs g =
      (if g.type = .OR then
        FAst.node none (some ((i :: j :: l).map (leafAt fs))) none (some 1)
      else FAst.node (some ((i :: j :: l).map (leafAt fs))) none none
        none) := by
  rw [KFU.buildGroupNode.eq_def]
  simp only [hfi, List.map_cons]
  rfl

/-- Claim C5 as amended: a group segment with exactly one surviving member
becomes that member leaf, and one with two or more members becomes
Bool(group.type, [Leaf(m)]) with no deeper nesting, both as claimed; the
ordered segment subtrees are then combined left to right, but every join
wraps the running result and the next subtree in a fresh two-child Bool
node using the connector of the next segment first clause, with no
flattening of same-operator runs (the fold of the implicit builder would
flatten them); the final conjunct shows the resulting nested shape on the
five clause, two group example. -/
theorem c5_amended :
    (∀ (fs : List GFilter) (g : FilterGroupDefinition) (i : Nat)
      (f : GFilter),
      g.filterIndices.filter (fun idx => idx < fs.length) = [i] →
      fs.get? i = some f →
      KFU.buildGroupNode fs g =
        .filt (some (KFU.toKibanaFilter f.toSimpleFilter))) ∧
    (∀ (fs : List GFilter) (g : FilterGroupDefinition) (i j : Nat)
      (l : List Nat),
      g.filterIndices.filter (fun idx => idx < fs.length) = i :: j :: l →
      KFU.buildGroupNode fs g =
        (if g.type = .OR then
          FAst.node none (some ((i :: j :: l).map (leafAt fs))) none
            (some 1)
        else FAst.node (some ((i :: j :: l).map (leafAt fs))) none none
          none)) ∧
    (∀ (fs : List GFilter) (segs : List KFU.Seg) (res : FAst),
      KFU.combineSegs fs res segs =
        specNestedCombine res (segs.map
          (fun s => (KFU.segFirstOp fs s, KFU.segToNode fs s)))) ∧
    KFU.buildGroupedAST
      [{ field := "f1", operator := "is", value := .vstr "v1" },
       { field := "f2", operator := "is", value := .vstr "v2", logic := some .OR },
       { field := "f3", operator := "is", value := .vstr "v3", logic := some .AND },
       { field := "f4", operator := "is", value := .vstr "v4", logic := some .AND },
       { field := "f5", operator := "is", value := .vstr "v5", logic := some .OR }]
      [{ id := "g1", type := .OR, filterIndices := [0, 1] },
       { id := "g2", type := .OR, filterIndices := [3, 4] }] =
      some (.node (some
        [.node (some
          [.node none (some
            [.filt (some (KFU.toKibanaFilter { field := "f1", operator := "is", value := .vstr "v1" })),
             .filt (some (KFU.toKibanaFilter { field := "f2", operator := "is", value := .vstr "v2", logic := some .OR }))])
            none (some 1),
           .filt (some (KFU.toKibanaFilter { field := "f3", operator := "is", value := .vstr "v3", logic := some .AND }))])
          none none none,
         .node none (some
           [.filt (some (KFU.toKibanaFilter { field := "f4", operator := "is", value := .vstr "v4", logic := some .AND })),
            .filt (some (KFU.toKibanaFilter { field := "f5", operator := "is", value := .vstr "v5", logic := some .OR }))])
           none (some 1)])
        none none none) :=
  ⟨buildGroupNode_single, buildGroupNode_multi,
   fun fs segs res => combineSegs_eq_nested fs segs res, rfl⟩

/-- Claim C5, counterexample to the claim as stated: with segments group,
single clause, group all joined by AND, the combination yields the nested
two-child node must [must [g1, c], g2] rather than the flattened
must [g1, c, g2] that the claimed implicit-builder fold would produce. -/
theorem c5_counterexample :
    KFU.buildGroupedAST
      [{ field := "f1", operator := "is", value := .vstr "v1" },
       { field := "f2", operator := "is", value := .vstr "v2", logic := some .OR },
       { field := "f3", operator := "is", value := .vstr "v3", logic := some .AND },
       { field := "f4", operator := "is", value := .vstr "v4", logic := some .AND },
       { field := "f5", operator := "is", value := .vstr "v5", logic := some .OR }]
      [{ id := "g1", type := .OR, filterIndices := [0, 1] },
       { id := "g2", type := .OR, filterIndices := [3, 4] }] =
      some (.node (some
        [.node (some
          [.node none (some
            [.filt (some (KFU.toKibanaFilter { field := "f1", operator := "is", value := .vstr "v1" })),
             .filt (some (KFU.toKibanaFilter { field := "f2", operator := "is", value := .vstr "v2", logic := some .OR }))])
            none (some 1),
           .filt (some (KFU.toKibanaFilter { field := "f3", operator := "is", value := .vstr "v3", logic := some .AND }))])
          none none none,
         .node none (some
           [.filt (some (KFU.toKibanaFilter { field := "f4", operator := "is", value := .vstr "v4", logic := some .AND })),
            .filt (some (KFU.toKibanaFilter { field := "f5", operator := "is", value := .vstr "v5", logic := some .OR }))])
           none (some 1)])
        none none none) ∧
    (.node (some
        [.node (some
          [.node none (some
            [.filt (some (KFU.toKibanaFilter { field := "f1", operator := "is", value := .vstr "v1" })),
             .filt (some (KFU.toKibanaFilter { field := "f2", operator := "is", value := .vstr "v2", logic := some .OR }))])
            none (some 1),
           .filt (some (KFU.toKibanaFilter { field := "f3", operator := "is", value := .vstr "v3", logic := some .AND }))])
          none none none,
         .node none (some
           [.filt (some (KFU.toKibanaFilter { field := "f4", operator := "is", value := .vstr "v4", logic := some .AND })),
            .filt (some (KFU.toKibanaFilter { field := "f5", operator := "is", value := .vstr "v5", logic := some .OR }))])
           none (some 1)]) none none none : FAst) ≠
      .node (some
        [.node none (some
          [.filt (some (KFU.toKibanaFilter { field := "f1", operator := "is", value := .vstr "v1" })),
           .filt (some (KFU.toKibanaFilter { field := "f2", operator := "is", value := .vstr "v2", logic := some .OR }))])
          none (some 1),
         .filt (some (KFU.toKibanaFilter { field := "f3", operator := "is", value := .vstr "v3", logic := some .AND })),
         .node none (some
           [.filt (some (KFU.toKibanaFilter { field := "f4", operator := "is", value := .vstr "v4", logic := some .AND })),
            .filt (some (KFU.toKibanaFilter { field := "f5", operator := "is", value := .vstr "v5", logic := some .OR }))])
           none (some 1)])
        none none none :=
  ⟨rfl, by simp⟩

/-- Claim C5 witness: the two group-node conjuncts applied to concrete
groups with one surviving member and with two members. -/
theorem c5_witness :
    KFU.buildGroupNode
      [{ field := "f1", operator := "is", value := .vstr "v1" }]
      { id := "g", type := .OR, filterIndices := [0, 5] } =
      .filt (some (KFU.toKibanaFilter { field := "f1", operator := "is", value := .vstr "v1" })) ∧
    KFU.buildGroupNode
      [{ field := "f1", operator := "is", value := .vstr "v1" },
       { field := "f2", operator := "is", value := .vstr "v2", logic := some .OR }]
      { id := "g", type := .OR, filterIndices := [0, 1] } =
      FAst.node none (some ([0, 1].map (leafAt
        [{ field := "f1", operator := "is", value := .vstr "v1" },
         { field := "f2", operator := "is", value := .vstr "v2", logic := some .OR }])))
        none (some 1) := by
  constructor
  · exact c5_amended.1
      [{ field := "f1", operator := "is", value := .vstr "v1" }]
      { id := "g", type := .OR, filterIndices := [0, 5] } 0
      { field := "f1", operator := "is", value := .vstr "v1" }
      (by decide) rfl
  · have h := c5_amended.2.1
      [{ field := "f1", operator := "is", value := .vstr "v1" },
       { field := "f2", operator := "is", value := .vstr "v2", logic := some .OR }]
      { id := "g", type := .OR, filterIndices := [0, 1] } 0 1 [] (by decide)
    rw [h]
    rfl

theorem get?_enum_map {α β : Type} (f : Nat × α → β) (l : List α)
    (p : Nat) :
    ((l.enum.map f).get? p) = (l.get? p).map (fun x => f (p, x)) := by
  rw [List.get?_map, List.enum_get?]
  cases l.get? p <;> rfl

/-- Claim C7 as amended: createGroup requires at least two selected indices
that are contiguous after sorting; a non-contiguous selection fails with a
console warning and no mutation; a too-small selection fails silently (no
report of any kind) and with no mutation; no exception escapes in either
case (the operation is a total function); on success no warning is issued,
any existing group overlapping the new index set is removed, the new group
is appended, each member clause is tagged with the group metadata whose
isGroupStart and isGroupEnd hold exactly on the first and last sorted
index, and the selection is cleared. -/
theorem c7_amended :
    (∀ (st : GMState) (ty : Lop) (gid : String),
      st.selectedIndices.length < 2 →
      FGM.createGroupFromSelection st ty gid = (st, [])) ∧
    (∀ (st : GMState) (ty : Lop) (gid : String),
      2 ≤ st.selectedIndices.length →
      FGM.chainSucc (stableSort (fun a b => a < b) st.selectedIndices) =
        false →
      FGM.createGroupFromSelection st ty gid =
        (st, [FGM.nonContiguousWarning])) ∧
    (∀ (st : GMState) (ty : Lop) (gid : String),
      2 ≤ st.selectedIndices.length →
      FGM.chainSucc (stableSort (fun a b => a < b) st.selectedIndices) =
        true →
      (FGM.createGroupFromSelection st ty gid).2 = [] ∧
      (FGM.createGroupFromSelection st ty gid).1.selectedIndices = [] ∧
      (FGM.createGroupFromSelection st ty gid).1.lastClickedIndex = none ∧
      (FGM.createGroupFromSelection st ty gid).1.groups =
        st.groups.filter (fun g =>
          !((stableSort (fun a b => a < b) st.selectedIndices).any
            (fun idx => g.filterIndices.contains idx))) ++
        [{ id := gid, type := ty,
           filterIndices := stableSort (fun a b => a < b)
             st.selectedIndices }] ∧
      (∀ (p : Nat) (f : GFilter), st.filters.get? p = some f →
        (FGM.createGroupFromSelection st ty gid).1.filters.get? p =
          some (if (stableSort (fun a b => a < b)
              st.selectedIndices).contains p then
            { f with groupMeta := some (tagMeta gid ty
              (stableSort (fun a b => a < b) st.selectedIndices) p) }
          else f))) := by
  refine ⟨?_, ?_, ?_⟩
  · intro st ty gid h
    rw [FGM.createGroupFromSelection.eq_def]
    rw [if_pos h]
  · intro st ty gid h2 hnc
    rw [FGM.createGroupFromSelection.eq_def]
    rw [if_neg (by omega)]
    simp only [hnc]
    rfl
  · intro st ty gid h2 hc
    have e : FGM.createGroupFromSelection st ty gid =
        ({ filters := FGM.updateFilterMetadata st.filters
            (stableSort (fun a b => a < b) st.selectedIndices) gid ty,
           groups := st.groups.filter (fun g =>
            !((stableSort (fun a b => a < b) st.selectedIndices).any
              (fun idx => g.filterIndices.contains idx))) ++
            [{ id := gid, type := ty,
               filterIndices := stableSort (fun a b => a < b)
                 st.selectedIndices }],
           selectedIndices := [], lastClickedIndex := none }, []) := by
      rw [FGM.createGroupFromSelection.eq_def]
      rw [if_neg (by omega)]
      simp only [hc]
      rfl
    rw [e]
    refine ⟨rfl, rfl, rfl, rfl, ?_⟩
    intro p f hget
    show (FGM.updateFilterMetadata st.filters
      (stableSort (fun a b => a < b) st.selectedIndices) gid ty).get? p = _
    rw [FGM.updateFilterMetadata, get?_enum_map, hget]
    rfl

/-- Claim C7, counterexample to the claim as stated: a too-small selection
(one index over three clauses) makes createGroupFromSelection return with
no state change and an empty warning list, so this failure is silent, not
a reported InvalidGroupError (no such error value exists in the code). -/
theorem c7_counterexample :
    FGM.createGroupFromSelection
      { filters := [{ field := "a", operator := "is", value := .vstr "1" },
                    { field := "b", operator := "is", value := .vstr "2", logic := some .AND },
                    { field := "c", operator := "is", value := .vstr "3", logic := some .AND }],
        groups := [], selectedIndices := [0], lastClickedIndex := some 0 }
      .OR "group_1" =
      ({ filters := [{ field := "a", operator := "is", value := .vstr "1" },
                     { field := "b", operator := "is", value := .vstr "2", logic := some .AND },
                     { field := "c", operator := "is", value := .vstr "3", logic := some .AND }],
         groups := [], selectedIndices := [0], lastClickedIndex := some 0 },
       []) :=
  rfl

/-- Claim C7 witness: the non-contiguous branch on the selection 0, 2 and
the success branch on a two element selection. -/
theorem c7_witness :
    FGM.createGroupFromSelection
      { filters := [], groups := [], selectedIndices := [0, 2],
        lastClickedIndex := none } .OR "g1" =
      ({ filters := [], groups := [], selectedIndices := [0, 2],
         lastClickedIndex := none }, [FGM.nonContiguousWarning]) ∧
    (FGM.createGroupFromSelection
      { filters := [], groups := [], selectedIndices := [1, 0],
        lastClickedIndex := none } .AND "g2").2 = [] ∧
    (FGM.createGroupFromSelection
      { filters := [], groups := [], selectedIndices := [1, 0],
        lastClickedIndex := none } .AND "g2").1.selectedIndices = [] :=
  ⟨c7_amended.2.1 _ .OR "g1" (by decide) (by decide),
   (c7_amended.2.2 _ .AND "g2" (by decide) (by decide)).1,
   (c7_amended.2.2 _ .AND "g2" (by decide) (by decide)).2.1⟩

/-- Claim C9: when removeFilter removes a clause owned by group G and at
least two recomputed members remain, only the entry of G in the group list
is replaced: every group with a different id keeps its position and its
exact record, including member indices greater than the removed position,
which are not decremented; when G dissolves, the other groups survive the
filter untouched; and when the removed clause carries no group id (no
metadata, an empty id, or an id that matches no group) the group list is
returned completely unchanged. -/
theorem c9_frame :
    (∀ (st : GMState) (idx : Nat) (meta : GroupMeta)
      (g : FilterGroupDefinition),
      (st.filters.get? idx).bind (fun f => f.groupMeta) = some meta →
      ¬(meta.groupId = "") →
      st.groups.find? (fun x => x.id = meta.groupId) = some g →
      (2 ≤ ((g.filterIndices.filter (fun i => !(i = idx))).map
          (fun i => if idx < i then i - 1 else i)).length →
        ∀ (n : Nat) (g2 : FilterGroupDefinition),
          st.groups.get? n = some g2 → ¬(g2.id = meta.groupId) →
          (FGM.removeFilter st idx).groups.get? n = some g2) ∧
      (((g.filterIndices.filter (fun i => !(i = idx))).map
          (fun i => if idx < i then i - 1 else i)).length < 2 →
        (FGM.removeFilter st idx).groups =
          st.groups.filter (fun x => !(x.id = meta.groupId)))) ∧
    (∀ (st : GMState) (idx : Nat),
      (st.filters.get? idx).bind (fun f => f.groupMeta) = none →
      (FGM.removeFilter st idx).groups = st.groups) ∧
    (∀ (st : GMState) (idx : Nat) (meta : GroupMeta),
      (st.filters.get? idx).bind (fun f => f.groupMeta) = some meta →
      meta.groupId = "" →
      (FGM.removeFilter st idx).groups = st.groups) ∧
    (∀ (st : GMState) (idx : Nat) (meta : GroupMeta),
      (st.filters.get? idx).bind (fun f => f.groupMeta) = some meta →
      ¬(meta.groupId = "") →
      st.groups.find? (fun x => x.id = meta.groupId) = none →
      (FGM.removeFilter st idx).groups = st.groups) := by
  refine ⟨?_, ?_, ?_, ?_⟩
  · intro st idx meta g hbind hne hfind
    constructor
    · intro h2 n g2 hget hne2
      rw [FGM.removeFilter.eq_def]
      simp only [hbind, hfind]
      rw [if_neg hne, if_neg (by omega)]
      show (st.groups.map (fun x =>
        if x.id = meta.groupId then
          { g with filterIndices := (g.filterIndices.filter (fun i => !(i = idx))).map (fun i => if idx < i then i - 1 else i) }
        else x)).get? n = some g2
      rw [List.get?_map, hget]
      simp [hne2]
    · intro h2
      rw [FGM.removeFilter.eq_def]
      simp only [hbind, hfind]
      rw [if_neg hne, if_pos h2]
      show (FGM.removeGroup st meta.groupId).groups = _
      rw [FGM.removeGroup.eq_def]
      simp only [hfind]
  · intro st idx h
    rw [FGM.removeFilter.eq_def]
    simp only [h]
  · intro st idx meta hbind he
    rw [FGM.removeFilter.eq_def]
    simp only [hbind]
    rw [if_pos he]
  · intro st idx meta hbind hne hfind
    rw [FGM.removeFilter.eq_def]
    simp only [hbind, hfind]
    rw [if_neg hne]

/-- Claim C9 witness: removing clause 0 of group g1 over 0, 1, 2 leaves the
later group g2 over 3, 4 bit for bit unchanged at its position. -/
theorem c9_witness :
    (FGM.removeFilter
      { filters :=
          [{ field := "a", operator := "is", value := .vstr "1", groupMeta := some { groupId := "g1", groupType := .OR, isGroupStart := true, isGroupEnd := false } },
           { field := "b", operator := "is", value := .vstr "2", logic := some .OR, groupMeta := some { groupId := "g1", groupType := .OR, isGroupStart := false, isGroupEnd := false } },
           { field := "c", operator := "is", value := .vstr "3", logic := some .OR, groupMeta := some { groupId := "g1", groupType := .OR, isGroupStart := false, isGroupEnd := true } },
           { field := "d", operator := "is", value := .vstr "4", logic := some .AND, groupMeta := some { groupId := "g2", groupType := .AND, isGroupStart := true, isGroupEnd := false } },
           { field := "e", operator := "is", value := .vstr "5", logic := some .AND, groupMeta := some { groupId := "g2", groupType := .AND, isGroupStart := false, isGroupEnd := true } }],
        groups := [{ id := "g1", type := .OR, filterIndices := [0, 1, 2] },
                   { id := "g2", type := .AND, filterIndices := [3, 4] }],
        selectedIndices := [], lastClickedIndex := none } 0).groups.get? 1 =
      some { id := "g2", type := .AND, filterIndices := [3, 4] } := by
  have h := (c9_frame.1
    { filters :=
        [{ field := "a", operator := "is", value := .vstr "1", groupMeta := some { groupId := "g1", groupType := .OR, isGroupStart := true, isGroupEnd := false } },
         { field := "b", operator := "is", value := .vstr "2", logic := some .OR, groupMeta := some { groupId := "g1", groupType := .OR, isGroupStart := false, isGroupEnd := false } },
         { field := "c", operator := "is", value := .vstr "3", logic := some .OR, groupMeta := some { groupId := "g1", groupType := .OR, isGroupStart := false, isGroupEnd := true } },
         { field := "d", operator := "is", value := .vstr "4", logic := some .AND, groupMeta := some { groupId := "g2", groupType := .AND, isGroupStart := true, isGroupEnd := false } },
         { field := "e", operator := "is", value := .vstr "5", logic := some .AND, groupMeta := some { groupId := "g2", groupType := .AND, isGroupStart := false, isGroupEnd := true } }],
      groups := [{ id := "g1", type := .OR, filterIndices := [0, 1, 2] },
                 { id := "g2", type := .AND, filterIndices := [3, 4] }],
      selectedIndices := [], lastClickedIndex := none } 0
    { groupId := "g1", groupType := .OR, isGroupStart := true, isGroupEnd := false }
    { id := "g1", type := .OR, filterIndices := [0, 1, 2] }
    rfl (by decide) rfl).1 (by decide) 1
    { id := "g2", type := .AND, filterIndices := [3, 4] } rfl (by decide)
  exact h

-- ===========================================================================
-- Helper lemmas for the group set invariant (claim C6)
-- ===========================================================================

theorem insertSorted_length {α : Type} (lt : α → α → Bool) (x : α)
    (l : List α) : (insertSorted lt x l).length = l.length + 1 := by
  induction l with
  | nil => rfl
  | cons y ys ih =>
    rw [insertSorted]
    cases h : lt x y <;> simp [h, ih]

theorem foldl_insert_length {α : Type} (lt : α → α → Bool) :
    ∀ (l acc : List α),
      (l.foldl (fun acc x => insertSorted lt x acc) acc).length =
        acc.length + l.length := by
  intro l
  induction l with
  | nil => intro acc; simp
  | cons x xs ih =>
    intro acc
    rw [List.foldl_cons, ih, insertSorted_length]
    simp [List.length_cons]
    omega

theorem stableSort_length {α : Type} (lt : α → α → Bool) (l : List α) :
    (stableSort lt l).length = l.length := by
  rw [stableSort, foldl_insert_length]
  simp

theorem chainSucc_range : ∀ (n a : Nat),
    FGM.chainSucc (List.range' a n) = true := by
  intro n
  induction n with
  | zero => intro a; rfl
  | succ m ih =>
    intro a
    cases m with
    | zero => rfl
    | succ k =>
      have e : FGM.chainSucc (List.range' a (k + 2)) =
          (decide (a + 1 = a + 1) && FGM.chainSucc (List.range' (a + 1) (k + 1))) := rfl
      rw [e, ih (a + 1)]
      simp

theorem chainSucc_eq_range : ∀ (l : List Nat),
    FGM.chainSucc l = true → l = List.range' (l.headD 0) l.length := by
  intro l
  induction l with
  | nil => intro h; rfl
  | cons x t ih =>
    cases t with
    | nil => intro h; rfl
    | cons y r =>
      intro h
      have h1 : y = x + 1 ∧ FGM.chainSucc (y :: r) = true := by
        have e : FGM.chainSucc (x :: y :: r) =
            (decide (y = x + 1) && FGM.chainSucc (y :: r)) := rfl
        rw [e] at h
        simpa using h
      have ih2 := ih h1.2
      show x :: y :: r = x :: List.range' (x + 1) (r.length + 1)
      congr 1
      rw [← h1.1]
      exact ih2

theorem range_filter_ne (k a n : Nat) (h : k < a) :
    (List.range' a n).filter (fun i => !(i = k)) = List.range' a n := by
  apply List.filter_eq_self.mpr
  intro i hi
  rw [List.mem_range'_1] at hi
  simp
  omega

theorem range_map_dec (k : Nat) : ∀ (n a : Nat), k < a →
    (List.range' a n).map (fun i => if k < i then i - 1 else i) =
      List.range' (a - 1) n := by
  intro n
  induction n with
  | zero => intro a h; rfl
  | succ m ih =>
    intro a h
    have e0 : List.range' a (m + 1) = a :: List.range' (a + 1) m := rfl
    rw [e0, List.map_cons, if_pos h, ih (a + 1) (by omega)]
    have e1 : a + 1 - 1 = a - 1 + 1 := by omega
    rw [e1]
    rfl

theorem delShift_range : ∀ (n a k : Nat), a ≤ k → k < a + n →
    delShift k (List.range' a n) = List.range' a (n - 1) := by
  intro n
  induction n with
  | zero => intro a k h1 h2; exact absurd h2 (by omega)
  | succ m ih =>
    intro a k h1 h2
    simp only [delShift]
    have e0 : List.range' a (m + 1) = a :: List.range' (a + 1) m := rfl
    rw [e0]
    by_cases hk : a = k
    · subst hk
      rw [List.filter_cons]
      rw [if_neg (by simp)]
      rw [range_filter_ne a (a + 1) m (by omega)]
      rw [range_map_dec a m (a + 1) (by omega)]
      simp
    · have hak : a < k := by omega
      rw [List.filter_cons]
      rw [if_pos (by simp; omega)]
      rw [List.map_cons]
      rw [if_neg (by omega)]
      have e2 : ((List.range' (a + 1) m).filter (fun i => !(i = k))).map
          (fun i => if k < i then i - 1 else i) =
          delShift k (List.range' (a + 1) m) := rfl
      rw [e2, ih (a + 1) k (by omega) (by omega)]
      cases m with
      | zero => exact absurd h2 (by omega)
      | succ j =>
        have e3 : j + 1 - 1 = j := rfl
        rw [e3]
        rfl

theorem mem_delShift (k j : Nat) (l : List Nat) :
    j ∈ delShift k l ↔ (j ∈ l ∧ j < k) ∨ (j + 1 ∈ l ∧ k < j + 1) := by
  simp only [delShift, List.mem_map, List.mem_filter]
  constructor
  · rintro ⟨i, ⟨hi, hne⟩, heq⟩
    simp at hne
    by_cases hki : k < i
    · rw [if_pos hki] at heq
      right
      have e : i = j + 1 := by omega
      rw [e] at hi
      exact ⟨hi, by omega⟩
    · rw [if_neg hki] at heq
      left
      rw [heq] at hi hne
      exact ⟨hi, by omega⟩
  · rintro (⟨hj, hlt⟩ | ⟨hj1, hlt⟩)
    · refine ⟨j, ⟨hj, by simp; omega⟩, ?_⟩
      rw [if_neg (by omega)]
    · refine ⟨j + 1, ⟨hj1, by simp; omega⟩, ?_⟩
      rw [if_pos (by omega)]
      omega

theorem delShift_subset (l : List Nat) (k : Nat)
    (hc : FGM.chainSucc l = true) (hk : k ∈ l) :
    ∀ j ∈ delShift k l, j ∈ l := by
  intro j hj
  have hl := chainSucc_eq_range l hc
  rw [mem_delShift] at hj
  rw [hl] at hk ⊢
  rw [List.mem_range'_1] at hk ⊢
  rcases hj with ⟨hj, hjk⟩ | ⟨hj1, hlt⟩
  · rw [hl, List.mem_range'_1] at hj
    omega
  · rw [hl, List.mem_range'_1] at hj1
    omega

theorem chainSucc_delShift (l : List Nat) (k : Nat)
    (hc : FGM.chainSucc l = true) (hk : k ∈ l) :
    FGM.chainSucc (delShift k l) = true := by
  have hl := chainSucc_eq_range l hc
  rw [hl] at hk
  rw [List.mem_range'_1] at hk
  rw [hl, delShift_range l.length (l.headD 0) k hk.1 hk.2]
  exact chainSucc_range (l.length - 1) (l.headD 0)

theorem group_find_unique (gs : List FilterGroupDefinition) (gid : String)
    (hids : (gs.map (fun g => g.id)).Nodup) (g x : FilterGroupDefinition)
    (hf : gs.find? (fun g2 => g2.id = gid) = some g) (hx : x ∈ gs)
    (hxid : x.id = gid) : x = g := by
  have hg : g ∈ gs := List.mem_of_find?_eq_some hf
  have hgid : g.id = gid := by simpa using List.find?_some hf
  exact List.inj_on_of_nodup_map hids hx hg (by rw [hxid, hgid])

theorem removeGroup_groupsInv (st : GMState) (gid : String)
    (h : groupsInv st.groups) :
    groupsInv (FGM.removeGroup st gid).groups := by
  rw [FGM.removeGroup.eq_def]
  cases hf : st.groups.find? (fun g => g.id = gid) with
  | none => simpa using h
  | some g =>
    simp only [hf]
    exact ⟨fun g2 hg2 => h.1 g2 (List.mem_of_mem_filter hg2),
           h.2.sublist (List.filter_sublist _)⟩

theorem createGroup_groupsInv (st : GMState) (ty : Lop) (gid : String)
    (h : groupsInv st.groups) :
    groupsInv (FGM.createGroupFromSelection st ty gid).1.groups := by
  rw [FGM.createGroupFromSelection.eq_def]
  by_cases h2 : st.selectedIndices.length < 2
  · rw [if_pos h2]
    exact h
  · rw [if_neg h2]
    cases hc : FGM.chainSucc (stableSort (fun a b => a < b) st.selectedIndices) with
    | false =>
      simp only [hc, Bool.not_false]
      rw [if_pos trivial]
      exact h
    | true =>
      simp only [hc, Bool.not_true]
      rw [if_neg (by simp)]
      constructor
      · intro g hg
        rcases List.mem_append.mp hg with hg | hg
        · exact h.1 g (List.mem_of_mem_filter hg)
        · have hge : g = { id := gid, type := ty, filterIndices := stableSort (fun a b => a < b) st.selectedIndices } := by
            simpa using hg
          rw [hge]
          refine ⟨?_, hc⟩
          show 2 ≤ (stableSort (fun a b => a < b) st.selectedIndices).length
          rw [stableSort_length]
          omega
      · rw [List.pairwise_append]
        refine ⟨h.2.sublist (List.filter_sublist _), List.pairwise_singleton _ _, ?_⟩
        intro a ha b hb
        have hbe : b = { id := gid, type := ty, filterIndices := stableSort (fun a b => a < b) st.selectedIndices } := by
          simpa using hb
        rw [hbe]
        have hcond := (List.mem_filter.mp ha).2
        simp at hcond
        intro i hi hmem
        exact absurd hi (hcond i hmem)

theorem removeFilter_groupsInv (st : GMState) (idx : Nat)
    (h : groupsInv st.groups)
    (hids : (st.groups.map (fun g => g.id)).Nodup)
    (hcons : ∀ (meta : GroupMeta) (g : FilterGroupDefinition),
      (st.filters.get? idx).bind (fun f => f.groupMeta) = some meta →
      st.groups.find? (fun g2 => g2.id = meta.groupId) = some g →
      idx ∈ g.filterIndices) :
    groupsInv (FGM.removeFilter st idx).groups := by
  rw [FGM.removeFilter.eq_def]
  cases hb : (st.filters.get? idx).bind (fun f => f.groupMeta) with
  | none =>
    simp only [hb]
    exact h
  | some meta =>
    simp only [hb]
    by_cases hemp : meta.groupId = ""
    · rw [if_pos hemp]
      exact h
    · rw [if_neg hemp]
      cases hf : st.groups.find? (fun g2 => g2.id = meta.groupId) with
      | none =>
        simp only [hf]
        exact h
      | some g =>
        simp only [hf]
        have hgmem : g ∈ st.groups := List.mem_of_find?_eq_some hf
        have hidx : idx ∈ g.filterIndices := hcons meta g hb hf
        have hok := h.1 g hgmem
        by_cases hlen : ((g.filterIndices.filter (fun i => !(i = idx))).map (fun i => if idx < i then i - 1 else i)).length < 2
        · rw [if_pos hlen]
          exact removeGroup_groupsInv st meta.groupId h
        · rw [if_neg hlen]
          constructor
          · intro g2 hg2
            rw [List.mem_map] at hg2
            obtain ⟨x, hx, hxe⟩ := hg2
            by_cases hxid : x.id = meta.groupId
            · rw [← hxe, if_pos hxid]
              refine ⟨Nat.le_of_not_lt hlen, ?_⟩
              show FGM.chainSucc (delShift idx g.filterIndices) = true
              exact chainSucc_delShift g.filterIndices idx hok.2 hidx
            · rw [← hxe, if_neg hxid]
              exact h.1 x hx
          · rw [List.pairwise_map]
            have hpair : st.groups.Pairwise (fun a b => disjointG a b ∧ ¬(a.id = b.id)) :=
              h.2.and (List.pairwise_map.mp hids)
            refine hpair.imp_of_mem ?_
            intro a b ha hb2 hab
            by_cases haid : a.id = meta.groupId
            · by_cases hbid : b.id = meta.groupId
              · exact absurd (haid.trans hbid.symm) hab.2
              · rw [if_pos haid, if_neg hbid]
                have hag : a = g := group_find_unique st.groups meta.groupId hids g a hf ha haid
                intro i hi
                have hig : i ∈ g.filterIndices := delShift_subset g.filterIndices idx hok.2 hidx i hi
                have hd : disjointG a b := hab.1
                rw [hag] at hd
                exact hd i hig
            · by_cases hbid : b.id = meta.groupId
              · rw [if_neg haid, if_pos hbid]
                have hbg : b = g := group_find_unique st.groups meta.groupId hids g b hf hb2 hbid
                intro i hi hmem
                have hig : i ∈ g.filterIndices := delShift_subset g.filterIndices idx hok.2 hidx i hmem
                have hd : disjointG a b := hab.1
                rw [hbg] at hd
                exact hd i hi hig
              · rw [if_neg haid, if_neg hbid]
                exact hab.1

theorem createImplicitGroup_groupsInv (st : GMState) (fi : Nat) (ty : Lop)
    (gid : String) (h : groupsInv st.groups) :
    groupsInv (FGM.createImplicitGroup st fi ty gid).1.groups := by
  rw [FGM.createImplicitGroup]
  by_cases hge : fi + 1 ≥ st.filters.length
  · rw [if_pos hge]
    exact h
  · rw [if_neg hge]
    exact createGroup_groupsInv { st with selectedIndices := [fi, fi + 1] } ty gid h

/-- Claim C6: every group surviving a group manager operation keeps the
invariant of at least two contiguous member indices, pairwise disjoint
across groups (for removeFilter under unique group ids and a filter
metadata consistent with the group table); removeFilter recomputes the
owning group by deleting the removed index and decrementing every larger
index (the delShift characterization); with at least two surviving
members the updated group replaces the old entry, and with fewer than
two the group is dissolved: it is filtered out of the group list and the
metadata of its member cells is cleared. -/
theorem c6_invariants :
    (∀ (st : GMState) (ty : Lop) (gid : String), groupsInv st.groups →
      groupsInv (FGM.createGroupFromSelection st ty gid).1.groups) ∧
    (∀ (st : GMState) (gid : String), groupsInv st.groups →
      groupsInv (FGM.removeGroup st gid).groups) ∧
    (∀ (st : GMState) (idx : Nat) (m : ClickMod),
      (FGM.selectFilter st idx m).groups = st.groups) ∧
    (∀ (st : GMState) (fi : Nat) (ty : Lop) (gid : String),
      groupsInv st.groups →
      groupsInv (FGM.createImplicitGroup st fi ty gid).1.groups) ∧
    (∀ (st : GMState) (idx : Nat), groupsInv st.groups →
      (st.groups.map (fun g => g.id)).Nodup →
      (∀ (meta : GroupMeta) (g : FilterGroupDefinition),
        (st.filters.get? idx).bind (fun f => f.groupMeta) = some meta →
        st.groups.find? (fun g2 => g2.id = meta.groupId) = some g →
        idx ∈ g.filterIndices) →
      groupsInv (FGM.removeFilter st idx).groups) ∧
    (∀ (k j : Nat) (l : List Nat),
      j ∈ delShift k l ↔ (j ∈ l ∧ j < k) ∨ (j + 1 ∈ l ∧ k < j + 1)) ∧
    (∀ (st : GMState) (idx : Nat) (meta : GroupMeta)
      (g : FilterGroupDefinition),
      (st.filters.get? idx).bind (fun f => f.groupMeta) = some meta →
      ¬(meta.groupId = "") →
      st.groups.find? (fun g2 => g2.id = meta.groupId) = some g →
      2 ≤ (delShift idx g.filterIndices).length →
      (FGM.removeFilter st idx).groups =
        st.groups.map (fun g2 => if g2.id = meta.groupId then
          { g with filterIndices := delShift idx g.filterIndices }
          else g2)) ∧
    (∀ (st : GMState) (idx : Nat) (meta : GroupMeta)
      (g : FilterGroupDefinition),
      (st.filters.get? idx).bind (fun f => f.groupMeta) = some meta →
      ¬(meta.groupId = "") →
      st.groups.find? (fun g2 => g2.id = meta.groupId) = some g →
      (delShift idx g.filterIndices).length < 2 →
      (FGM.removeFilter st idx).groups =
        st.groups.filter (fun g2 => !(g2.id = meta.groupId)) ∧
      (∀ (p : Nat) (fp : GFilter), st.filters.get? p = some fp →
        g.filterIndices.contains p = true →
        (FGM.removeFilter st idx).filters.get? p =
          some { fp with groupMeta := none })) := by
  refine ⟨createGroup_groupsInv, removeGroup_groupsInv,
    fun st idx m => rfl, createImplicitGroup_groupsInv,
    removeFilter_groupsInv, mem_delShift, ?_, ?_⟩
  · intro st idx meta g hb hemp hf h2
    have h2b : ¬((g.filterIndices.filter (fun i => !(i = idx))).map
        (fun i => if idx < i then i - 1 else i)).length < 2 :=
      Nat.not_lt.mpr h2
    rw [FGM.removeFilter.eq_def]
    simp only [hb, hf]
    rw [if_neg hemp, if_neg h2b]
    rfl
  · intro st idx meta g hb hemp hf h2
    have h2b : ((g.filterIndices.filter (fun i => !(i = idx))).map
        (fun i => if idx < i then i - 1 else i)).length < 2 := h2
    rw [FGM.removeFilter.eq_def]
    simp only [hb, hf]
    rw [if_neg hemp, if_pos h2b]
    constructor
    · show (FGM.removeGroup st meta.groupId).groups = _
      rw [FGM.removeGroup.eq_def]
      simp only [hf]
    · intro p fp hget hcont
      show (FGM.removeGroup st meta.groupId).filters.get? p = _
      rw [FGM.removeGroup.eq_def]
      simp only [hf]
      show (st.filters.enum.map (fun q =>
        if g.filterIndices.contains q.1 then { q.2 with groupMeta := none }
        else q.2)).get? p = _
      rw [get?_enum_map, hget]
      simp [hcont]
      intro hp
      exact absurd (by simpa using hcont) hp

/-- Claim C6 witness: removing clause 1 of group g1 over 0, 1, 2 keeps the
group set invariant and rewrites g1 to the contiguous pair 0, 1 while g2
over 3, 4 is untouched. -/
theorem c6_witness :
    groupsInv (FGM.removeFilter
      { filters :=
          [{ field := "a", operator := "is", value := .vstr "1", groupMeta := some { groupId := "g1", groupType := .OR, isGroupStart := true, isGroupEnd := false } },
           { field := "b", operator := "is", value := .vstr "2", logic := some .OR, groupMeta := some { groupId := "g1", groupType := .OR, isGroupStart := false, isGroupEnd := false } },
           { field := "c", operator := "is", value := .vstr "3", logic := some .OR, groupMeta := some { groupId := "g1", groupType := .OR, isGroupStart := false, isGroupEnd := true } },
           { field := "d", operator := "is", value := .vstr "4", logic := some .AND, groupMeta := some { groupId := "g2", groupType := .AND, isGroupStart := true, isGroupEnd := false } },
           { field := "e", operator := "is", value := .vstr "5", logic := some .AND, groupMeta := some { groupId := "g2", groupType := .AND, isGroupStart := false, isGroupEnd := true } }],
        groups := [{ id := "g1", type := .OR, filterIndices := [0, 1, 2] },
                   { id := "g2", type := .AND, filterIndices := [3, 4] }],
        selectedIndices := [], lastClickedIndex := none } 1).groups ∧
    (FGM.removeFilter
      { filters :=
          [{ field := "a", operator := "is", value := .vstr "1", groupMeta := some { groupId := "g1", groupType := .OR, isGroupStart := true, isGroupEnd := false } },
           { field := "b", operator := "is", value := .vstr "2", logic := some .OR, groupMeta := some { groupId := "g1", groupType := .OR, isGroupStart := false, isGroupEnd := false } },
           { field := "c", operator := "is", value := .vstr "3", logic := some .OR, groupMeta := some { groupId := "g1", groupType := .OR, isGroupStart := false, isGroupEnd := true } },
           { field := "d", operator := "is", value := .vstr "4", logic := some .AND, groupMeta := some { groupId := "g2", groupType := .AND, isGroupStart := true, isGroupEnd := false } },
           { field := "e", operator := "is", value := .vstr "5", logic := some .AND, groupMeta := some { groupId := "g2", groupType := .AND, isGroupStart := false, isGroupEnd := true } }],
        groups := [{ id := "g1", type := .OR, filterIndices := [0, 1, 2] },
                   { id := "g2", type := .AND, filterIndices := [3, 4] }],
        selectedIndices := [], lastClickedIndex := none } 1).groups =
      [{ id := "g1", type := .OR, filterIndices := [0, 1] },
       { id := "g2", type := .AND, filterIndices := [3, 4] }] := by
  constructor
  · exact c6_invariants.2.2.2.2.1
      { filters :=
          [{ field := "a", operator := "is", value := .vstr "1", groupMeta := some { groupId := "g1", groupType := .OR, isGroupStart := true, isGroupEnd := false } },
           { field := "b", operator := "is", value := .vstr "2", logic := some .OR, groupMeta := some { groupId := "g1", groupType := .OR, isGroupStart := false, isGroupEnd := false } },
           { field := "c", operator := "is", value := .vstr "3", logic := some .OR, groupMeta := some { groupId := "g1", groupType := .OR, isGroupStart := false, isGroupEnd := true } },
           { field := "d", operator := "is", value := .vstr "4", logic := some .AND, groupMeta := some { groupId := "g2", groupType := .AND, isGroupStart := true, isGroupEnd := false } },
           { field := "e", operator := "is", value := .vstr "5", logic := some .AND, groupMeta := some { groupId := "g2", groupType := .AND, isGroupStart := false, isGroupEnd := true } }],
        groups := [{ id := "g1", type := .OR, filterIndices := [0, 1, 2] },
                   { id := "g2", type := .AND, filterIndices := [3, 4] }],
        selectedIndices := [], lastClickedIndex := none } 1
      (by unfold groupsInv groupOk disjointG; decide) (by decide)
      (by
        intro meta g hbm hfm
        have hbm2 : some { groupId := "g1", groupType := Lop.OR, isGroupStart := false, isGroupEnd := false } = some meta := hbm
        injection hbm2 with hm
        rw [← hm] at hfm
        have hfm2 : some { id := "g1", type := Lop.OR, filterIndices := [0, 1, 2] } = some g := hfm
        injection hfm2 with hg
        rw [← hg]
        decide)
  · have h := c6_invariants.2.2.2.2.2.2.1
      { filters :=
          [{ field := "a", operator := "is", value := .vstr "1", groupMeta := some { groupId := "g1", groupType := .OR, isGroupStart := true, isGroupEnd := false } },
           { field := "b", operator := "is", value := .vstr "2", logic := some .OR, groupMeta := some { groupId := "g1", groupType := .OR, isGroupStart := false, isGroupEnd := false } },
           { field := "c", operator := "is", value := .vstr "3", logic := some .OR, groupMeta := some { groupId := "g1", groupType := .OR, isGroupStart := false, isGroupEnd := true } },
           { field := "d", operator := "is", value := .vstr "4", logic := some .AND, groupMeta := some { groupId := "g2", groupType := .AND, isGroupStart := true, isGroupEnd := false } },
           { field := "e", operator := "is", value := .vstr "5", logic := some .AND, groupMeta := some { groupId := "g2", groupType := .AND, isGroupStart := false, isGroupEnd := true } }],
        groups := [{ id := "g1", type := .OR, filterIndices := [0, 1, 2] },
                   { id := "g2", type := .AND, filterIndices := [3, 4] }],
        selectedIndices := [], lastClickedIndex := none } 1
      { groupId := "g1", groupType := .OR, isGroupStart := false, isGroupEnd := false }
      { id := "g1", type := .OR, filterIndices := [0, 1, 2] }
      rfl (by decide) rfl (by decide)
    rw [h]
    rfl
